import Mathlib

/-!
Formal model of the Refactoring-Swarm control loop (Amina3524/Refactoring-Swarm-HiveMind).

Shallow embedding of the per-file fix-test-retry state machine and its
surrounding plumbing, translated from the Python sources:

  - src/src/workflow/state.py          (WorkflowState TypedDict)
  - src/src/workflow/conditions.py     (should_retry_fix, increment_iteration)
  - src/src/workflow/nodes.py          (audit_node, fix_node, test_node, error_node)
  - src/src/workflow/graph.py          (graph wiring: audit -> fix -> test -> route)
  - src/src/workflow/orchestrator.py   (RefactoringOrchestrator)
  - src/src/agents/base_agent.py       (BaseAgent._create_error_result)
  - src/src/agents/auditor_agent.py    (AuditorAgent.execute)
  - src/src/agents/fixer_agent.py      (FixerAgent.execute)
  - src/src/agents/judge_agent.py      (JudgeAgent.execute and handlers)
  - src/src/tools/file_tools.py        (FileTools: sandbox write boundary)
  - src/src/tools/test_tools.py        (TestTools.create_basic_test write path)

External collaborators (LLM client, pylint subprocess, pytest subprocess,
safe-execution subprocess, the experiment logger) are modelled as oracle
inputs, following the spec section 2 which treats them as black boxes.
Python str values are modelled as String; Python float scores as Rat
(only their ordering is used); Python int as Int; Python None via Option.
Python dict-truthiness tests on these values are transcribed at each use.
-/

namespace Swarm

/-! ## Strings and paths

Python operates on str; the helpers below mirror the exact stdlib calls the
sources make (str.split, Path.name, Path.stem, Path.resolve,
Path.is_relative_to, substring membership), implemented structurally over
the character list so that concrete runs reduce in the kernel. -/

/-- Occurrence of one character list inside another: the pattern is a prefix
of some suffix. -/
def listInfixOf (pat : List Char) : List Char → Bool
  | [] => pat.isEmpty
  | c :: cs => pat.isPrefixOf (c :: cs) || listInfixOf pat cs

/-- Containment test transcribing the Python expression pat in s. -/
def strContains (s pat : String) : Bool :=
  listInfixOf pat.data s.data

/-- Suffix test transcribing the Python expression s.endswith suffix. -/
def strEndsWith (s suffix : String) : Bool :=
  suffix.data.isSuffixOf s.data

/-- Split of a character list at every occurrence of the separator character,
mirroring Python str.split with a one-character separator (the sources only
split on the slash and, for stems, search for the dot). -/
def splitOnChar (sep : Char) : List Char → List (List Char)
  | [] => [[]]
  | c :: cs =>
    let r := splitOnChar sep cs
    if c = sep then [] :: r
    else
      match r with
      | [] => [[c]]
      | h :: t => (c :: h) :: t

/-- Last path component, transcribing both spellings the sources use:
current_file.split("/")[-1] in FixerAgent.execute and Path(original_file).name
in JudgeAgent (these agree on slash-separated file paths). -/
def pathName (p : String) : String :=
  ⟨(splitOnChar '/' p.data).getLastD []⟩

/-- Name with its final dot-extension removed, transcribing Path(...).stem as
used by TestTools.create_basic_test: everything before the last dot, the whole
name when no dot occurs. -/
def pathStem (n : String) : String :=
  let cs := n.data
  if cs.contains '.' then ⟨(((cs.reverse.dropWhile (fun c => c ≠ '.')).drop 1).reverse)⟩
  else n

/-- Lexicographic comparison of character lists by code point, the order
Python sorted uses on str. -/
def lexLe : List Char → List Char → Bool
  | [], _ => true
  | _ :: _, [] => false
  | a :: as, b :: bs => if a = b then lexLe as bs else decide (a < b)

/-- Lexicographic order on strings (Python str comparison). -/
def strLe (a b : String) : Bool :=
  lexLe a.data b.data

/-- Absolute, normalized filesystem path: list of components from the root.
Path.resolve in Python produces such a path. -/
abbrev AbsPath := List String

/-- Possibly relative path as handed to FileTools (pathlib.Path of a str):
a flag for a leading slash plus the slash-separated components. -/
structure PyPath where
  absolute : Bool
  comps : List String
deriving DecidableEq

/-- Component-wise normalization step of Path.resolve: double dots pop the
last accumulated component, single dots vanish, everything else is appended. -/
def resolveComps : AbsPath → List String → AbsPath
  | acc, [] => acc
  | acc, c :: rest =>
    if c = "." then resolveComps acc rest
    else if c = ".." then resolveComps acc.dropLast rest
    else resolveComps (acc ++ [c]) rest

/-- Path.resolve against the process working directory: relative paths are
anchored at the cwd, absolute ones at the root, then normalized. -/
def resolvePath (cwd : AbsPath) (p : PyPath) : AbsPath :=
  resolveComps (if p.absolute then [] else cwd) p.comps

/-! ## Filesystem and FileTools (src/src/tools/file_tools.py) -/

/-- Filesystem contents: association list from absolute paths to file
contents, later writes shadowing earlier ones. -/
abbrev FS := List (AbsPath × String)

/-- Lookup of a file by absolute path. -/
def fsGet (fs : FS) (p : AbsPath) : Option String :=
  match fs with
  | [] => none
  | (q, c) :: rest => if q = p then some c else fsGet rest p

/-- Store of a file at an absolute path. -/
def fsSet (fs : FS) (p : AbsPath) (c : String) : FS :=
  (p, c) :: fs

/-- Process context for FileTools: the working directory the Python process
resolves relative paths against, and the sandbox root computed once in
FileTools.__init__ via Path(sandbox_dir).resolve(). -/
structure Ctx where
  cwd : AbsPath
  sandbox_dir : AbsPath
deriving DecidableEq

/-- Transcription of FileTools._is_safe_path: resolve the path and test
resolved.is_relative_to(self.sandbox_dir), which on absolute normalized
paths is the component-prefix test. -/
def is_safe_path (ctx : Ctx) (p : PyPath) : Bool :=
  ctx.sandbox_dir.isPrefixOf (resolvePath ctx.cwd p)

/-- Transcription of FileTools.write_file: the safety check runs first and a
rejected path raises PermissionError with the filesystem untouched; an
accepted path has the content stored. The Bool reports success (the in-model
analogue of not raising). -/
def write_file (ctx : Ctx) (fs : FS) (file_path : PyPath) (content : String) : FS × Bool :=
  if ¬ is_safe_path ctx file_path then (fs, false)
  else (fsSet fs (resolvePath ctx.cwd file_path) content, true)

/-- Transcription of FileTools.get_sandbox_path: str(self.sandbox_dir / filename),
an absolute path one component below the sandbox root. -/
def get_sandbox_path (ctx : Ctx) (filename : String) : PyPath :=
  ⟨true, ctx.sandbox_dir ++ [filename]⟩

/-! ## Data model (src/src/workflow/state.py and the agent payloads) -/

/-- Issue entry of an audit report, the shape produced in
AuditorAgent._simulate_llm_response and required by the prompts. -/
structure Issue where
  line : Int
  kind : String
  description : String
  suggestion : String
deriving DecidableEq

/-- Summary block of an audit report. Keys the Python dict may simply lack
are modelled as none respectively the empty list, matching the .get
defaults at every read site. -/
structure ReportSummary where
  pylint_score : Option Rat
  function_count : Option Int
  overall_risk : Option String
  refactoring_priority : List String
  note : Option String
deriving DecidableEq

/-- Audit report dict: the refactoring plan built by the Auditor, the error
report of AuditorAgent._create_error_result, or the Fixer placeholder.
Missing dict keys are encoded as the empty list / none / false, which is
read-equivalent because every consumer reads them with .get defaults. -/
structure AuditReport where
  critical_issues : List Issue
  major_issues : List Issue
  minor_issues : List Issue
  summary : ReportSummary
  file : Option String
  fallback : Bool
  error : Option String
deriving DecidableEq

/-- Values stored in the open agent_outputs dict. -/
inductive AOVal where
  | report (r : AuditReport)
  | num (q : Rat)
  | strList (l : List String)
  | str (s : String)
  | boolV (b : Bool)
  | fixInfo (iteration : Int) (valid : Bool)
deriving DecidableEq

/-- Open map for cross-agent auxiliary data. -/
abbrev AgentOutputs := List (String × AOVal)

/-- Update of one key, transcribing the Python spread pattern
that copies the dict and sets a single key. -/
def aoSet (m : AgentOutputs) (k : String) (v : AOVal) : AgentOutputs :=
  (k, v) :: m

/-- Key lookup in agent_outputs. -/
def aoGet (m : AgentOutputs) (k : String) : Option AOVal :=
  match m with
  | [] => none
  | (k2, v) :: rest => if k2 = k then some v else aoGet rest k

/-- Numeric read with default, transcribing
state.get("agent_outputs", ...).get(key, default) on a score entry. -/
def aoGetNum (m : AgentOutputs) (k : String) (d : Rat) : Rat :=
  match aoGet m k with
  | some (.num q) => q
  | _ => d

/-- Fix summary returned by FixerAgent.execute under the fix_result key. -/
structure FixResult where
  iteration : Int
  valid : Bool
  code_length : Int
deriving DecidableEq

/-- Test summary returned by JudgeAgent under the test_result key. Keys a
given branch does not put in the dict are encoded none / [] / false. -/
structure TestResult where
  passed : Bool
  errors : List String
  pylint_score : Option Rat
  iteration : Option Int
  max_iterations_reached : Bool
deriving DecidableEq

/-- The WorkflowState TypedDict of src/src/workflow/state.py. The three
run-level lists processed_files, success_files and failed_files are part of
the TypedDict but are never read or written by any node, so they are omitted
here; errors is kept because BaseAgent._create_error_result appends to it. -/
structure WorkflowState where
  target_dir : String
  current_file : String
  file_content : String
  current_phase : String
  iteration : Int
  max_iterations : Int
  audit_report : Option AuditReport
  fix_result : Option FixResult
  test_result : Option TestResult
  fixed_content : Option String
  test_errors : List String
  retry_count : Int
  agent_outputs : AgentOutputs
  errors : List String
deriving DecidableEq

/-- Partial state update returned by a node: one optional entry per state key
that any source return-dict ever carries. LangGraph merges such a dict into
the state key by key. The keys target_dir, current_file, file_content,
iteration and max_iterations appear in no return dict anywhere in the
sources, and audit_report is included precisely to record that the Auditor
return dict does not carry it. -/
structure StateDelta where
  current_phase : Option String
  audit_report : Option AuditReport
  fixed_content : Option String
  fix_result : Option FixResult
  test_result : Option TestResult
  test_errors : Option (List String)
  retry_count : Option Int
  agent_outputs : Option AgentOutputs
  errors : Option (List String)
deriving DecidableEq

/-- Delta with no keys. -/
def emptyDelta : StateDelta :=
  { current_phase := none, audit_report := none, fixed_content := none,
    fix_result := none, test_result := none, test_errors := none,
    retry_count := none, agent_outputs := none, errors := none }

/-- Key-wise merge of a delta into the state, the LangGraph update rule for
an un-annotated state schema: a key present in the delta replaces the state
entry, an absent key leaves it. -/
def applyDelta (s : WorkflowState) (d : StateDelta) : WorkflowState :=
  { s with
    current_phase := d.current_phase.getD s.current_phase,
    audit_report := match d.audit_report with
      | some r => some r
      | none => s.audit_report,
    fixed_content := match d.fixed_content with
      | some c => some c
      | none => s.fixed_content,
    fix_result := match d.fix_result with
      | some r => some r
      | none => s.fix_result,
    test_result := match d.test_result with
      | some r => some r
      | none => s.test_result,
    test_errors := d.test_errors.getD s.test_errors,
    retry_count := d.retry_count.getD s.retry_count,
    agent_outputs := d.agent_outputs.getD s.agent_outputs,
    errors := d.errors.getD s.errors }

/-! ## BaseAgent (src/src/agents/base_agent.py) -/

/-- Transcription of BaseAgent._create_error_result: the returned dict has
exactly the keys agent_outputs (!name!_error entry added) and errors (message
appended); in particular it carries no current_phase. -/
def create_error_result (name : String) (s : WorkflowState) (error : String) : StateDelta :=
  { emptyDelta with
    agent_outputs := some (aoSet s.agent_outputs (name ++ "_error") (.str error)),
    errors := some (s.errors ++ [name ++ ": " ++ error]) }

/-! ## AuditorAgent (src/src/agents/auditor_agent.py)

The LLM call and the five-strategy response parsing are the external
collaborator boundary; their combined result, the refactoring plan that
_parse_llm_response_safely returns, is the oracle input plan below. -/

/-- Error report built inside AuditorAgent._create_error_result: a dict with
an error entry and the three empty issue lists. -/
def auditorErrorReport (msg : String) : AuditReport :=
  { critical_issues := [], major_issues := [], minor_issues := [],
    summary := { pylint_score := none, function_count := none,
                 overall_risk := none, refactoring_priority := [], note := none },
    file := none, fallback := false, error := some msg }

/-- Transcription of AuditorAgent._create_error_result (the Auditor
overrides the base class): the plan goes under agent_outputs["audit_report"]
and the phase is set to error. -/
def auditorErrorResult (s : WorkflowState) (msg : String) : StateDelta :=
  { emptyDelta with
    agent_outputs := some (aoSet s.agent_outputs "audit_report" (.report (auditorErrorReport msg))),
    current_phase := some "error" }

/-- Transcription of AuditorAgent.execute. On empty input the error result is
returned without consulting the collaborator; otherwise the returned dict
stores the parsed plan under agent_outputs["audit_report"] and sets
current_phase to fix. Note that no branch puts a top-level audit_report key
into the return dict. -/
def auditorExecute (s : WorkflowState) (plan : AuditReport) : StateDelta :=
  if s.file_content = "" then auditorErrorResult s "No code content"
  else
    { emptyDelta with
      agent_outputs := some (aoSet s.agent_outputs "audit_report" (.report plan)),
      current_phase := some "fix" }

/-! ## FixerAgent (src/src/agents/fixer_agent.py)

The LLM call composed with _extract_code is the collaborator boundary: the
oracle is either the exception of the call or the extracted candidate code.
The post-fix syntax check (ast.parse in AnalysisTools.check_syntax) is a
subprocess-free external tool, also an oracle. _attempt_syntax_fix returns
its input unchanged in the source and is therefore the identity here. -/

/-- Outcome of the LLM call for one fix pass. -/
inductive LLMOutcome where
  | err (msg : String)
  | ok (code : String)
deriving DecidableEq

/-- Placeholder report substituted by FixerAgent.execute when the state has
no audit report: a dict holding only summary.refactoring_priority. -/
def fixerDefaultReport : AuditReport :=
  { critical_issues := [], major_issues := [], minor_issues := [],
    summary := { pylint_score := none, function_count := none,
                 overall_risk := none,
                 refactoring_priority := ["Add docstrings"], note := none },
    file := none, fallback := false, error := none }

/-- Code base of a fix pass, transcribing the reads at the top of
FixerAgent.execute: file_content, overridden by a truthy fixed_content. -/
def fixerBaseCode (s : WorkflowState) : String :=
  match s.fixed_content with
  | none => s.file_content
  | some c => if c = "" then s.file_content else c

/-- Audit report a fix pass works from, transcribing the falsy-check
substitution in FixerAgent.execute. -/
def fixerReportUsed (s : WorkflowState) : AuditReport :=
  match s.audit_report with
  | none => fixerDefaultReport
  | some r => r

/-- Content of the prompt assembled by FixerAgent._prepare_fix_prompt: the
template slots that get filled (the code, the json-dump of the report, the
numbered test-error block, empty when there are no test errors). -/
structure FixPrompt where
  code : String
  audit_report : AuditReport
  test_errors : List String
deriving DecidableEq

/-- Prompt of a fix pass as a function of the state, mirroring the
_prepare_fix_prompt call inside FixerAgent.execute. -/
def fixerPrompt (s : WorkflowState) : FixPrompt :=
  { code := fixerBaseCode s, audit_report := fixerReportUsed s,
    test_errors := s.test_errors }

/-- Result of one fix pass: the state delta, the filesystem after the
sandbox save, and the write_file calls that were attempted (sandbox
filename with content). -/
structure FixOut where
  delta : StateDelta
  fs : FS
  writes : List (String × String)
deriving DecidableEq

/-- Transcription of FixerAgent.execute. Branches in source order: empty
code, LLM failure (error result with no fixed_content key), then the normal
path saving the candidate to sandbox path fixed_!iteration!_!basename! and
returning fixed_content, fix_result and the agent_outputs entry. -/
def fixerExecute (ctx : Ctx) (s : WorkflowState) (llm : LLMOutcome)
    (valid : Bool) (fs : FS) : FixOut :=
  if fixerBaseCode s = "" then
    { delta := create_error_result "FixerAgent" s "No code to fix", fs := fs, writes := [] }
  else
    match llm with
    | .err e =>
      { delta := create_error_result "FixerAgent" s ("LLM error: " ++ e), fs := fs, writes := [] }
    | .ok fixed_code =>
      let filename := "fixed_" ++ toString s.iteration ++ "_" ++ pathName s.current_file
      let w := write_file ctx fs (get_sandbox_path ctx filename) fixed_code
      { delta :=
          { emptyDelta with
            fixed_content := some fixed_code,
            fix_result := some { iteration := s.iteration, valid := valid,
                                 code_length := (fixed_code.length : Int) },
            agent_outputs := some (aoSet s.agent_outputs "fix_result"
              (.fixInfo s.iteration valid)) },
        fs := w.1,
        writes := [(filename, fixed_code)] }

/-! ## JudgeAgent (src/src/agents/judge_agent.py)

The external tool invocations of one judge pass are oracles: the ast-based
syntax check, the safe-execution subprocess, the pylint subprocess and the
pytest subprocess. prepare_ok models whether the filesystem raised during
_prepare_test_file (the sandbox write itself cannot be rejected, as proved
below, but an OS-level IOError still can occur in the source). -/

/-- Oracle results of the external tools consulted by one judge pass. -/
structure JudgeTools where
  prepare_ok : Bool
  prepare_err : String
  syntax_valid : Bool
  syntax_err : String
  syntax_line : Int
  run_success : Bool
  run_err : String
  pylint_score : Rat
  pytest_passed : Bool
  pytest_failures : List String
  pytest_errors : List String
deriving DecidableEq

/-- Code under judgment, transcribing the reads at the top of
JudgeAgent.execute: fixed_content, falling back to file_content when the
former is falsy (absent or empty). -/
def judgeFixedCode (s : WorkflowState) : String :=
  match s.fixed_content with
  | none => s.file_content
  | some c => if c = "" then s.file_content else c

/-- Transcription of JudgeAgent._evaluate_success: hard gates on syntax and
runtime, then the permissive disjunction of score non-regression and test
success. -/
def evaluate_success (valid runs improved tests_passed : Bool) : Bool :=
  if ¬ valid then false
  else if ¬ runs then false
  else improved || tests_passed

/-- Transcription of JudgeAgent._handle_test_failure: below the cap
(retry_count < max_iterations - 1 pre-increment) the counter is incremented
and the phase set to retry, otherwise the phase is error and
max_iterations_reached is recorded. -/
def handle_test_failure (s : WorkflowState) (errors : List String) : StateDelta :=
  if s.retry_count < s.max_iterations - 1 then
    { emptyDelta with
      test_result := some { passed := false, errors := errors, pylint_score := none,
                            iteration := none, max_iterations_reached := false },
      test_errors := some errors,
      retry_count := some (s.retry_count + 1),
      current_phase := some "retry",
      agent_outputs := some (aoSet s.agent_outputs "test_failures" (.strList errors)) }
  else
    { emptyDelta with
      test_result := some { passed := false, errors := errors, pylint_score := none,
                            iteration := none, max_iterations_reached := true },
      current_phase := some "error",
      agent_outputs := some (aoSet (aoSet s.agent_outputs "test_failures" (.strList errors))
        "max_iterations_reached" (.boolV true)) }

/-- Transcription of JudgeAgent._handle_test_success: the final code is
saved to sandbox path final_!basename! when both current_file and
fixed_content are truthy (note: fixed_content as stored in the state, not
the fallback code), then the phase is set to done. The returned pair also
carries the sandbox write, if any. -/
def handle_test_success (ctx : Ctx) (s : WorkflowState) (score : Rat) (fs : FS) :
    StateDelta × FS × List (String × String) :=
  let finalWrite : Option (String × String) :=
    if s.current_file ≠ "" then
      match s.fixed_content with
      | none => none
      | some c => if c = "" then none else some ("final_" ++ pathName s.current_file, c)
    else none
  let fs2 := match finalWrite with
    | none => fs
    | some wr => (write_file ctx fs (get_sandbox_path ctx wr.1) wr.2).1
  ({ emptyDelta with
     test_result := some { passed := true, errors := [], pylint_score := some score,
                           iteration := some s.iteration, max_iterations_reached := false },
     current_phase := some "done",
     agent_outputs := some (aoSet s.agent_outputs "final_pylint_score" (.num score)) },
   fs2,
   (match finalWrite with | none => [] | some wr => [wr]))

/-- Result of one judge pass: the state delta, the filesystem after the
sandbox writes, and the writes themselves (sandbox filename, content). -/
structure JudgeOut where
  delta : StateDelta
  fs : FS
  writes : List (String × String)
deriving DecidableEq

/-- Transcription of JudgeAgent._run_tests together with the generated-test
write of TestTools.create_basic_test: when the code holds no test functions
a basic test file is generated next to the tested sandbox file (a raw write,
not routed through FileTools) before pytest runs. Returns the pytest result,
the generated flag, and the write if one happened. -/
def judgeRunTests (ctx : Ctx) (tools : JudgeTools) (testName : String) (code : String)
    (fs : FS) : Bool × FS × List (String × String) :=
  if strContains code "def test_" || strContains code "class Test" then
    (tools.pytest_passed, fs, [])
  else
    let genName := "test_" ++ pathStem testName ++ ".py"
    let genContent := "auto-generated tests for " ++ testName
    (tools.pytest_passed, fsSet fs (ctx.sandbox_dir ++ [genName]) genContent,
     [(genName, genContent)])

/-- Transcription of JudgeAgent.execute, branches in source order: missing
code, test-file preparation, syntax gate, runtime gate, pylint re-score
against agent_outputs["original_pylint_score"] defaulting to 0.0, test run,
verdict, and the matching handler. -/
def judgeExecute (ctx : Ctx) (s : WorkflowState) (tools : JudgeTools) (fs : FS) : JudgeOut :=
  let fixed_code := judgeFixedCode s
  if fixed_code = "" then
    { delta := create_error_result "JudgeAgent" s "No code to test", fs := fs, writes := [] }
  else
    let testName := "test_" ++ pathName s.current_file
    let fs1 := (write_file ctx fs (get_sandbox_path ctx testName) fixed_code).1
    if ¬ tools.prepare_ok then
      { delta := create_error_result "JudgeAgent" s ("Test setup error: " ++ tools.prepare_err),
        fs := fs1, writes := [(testName, fixed_code)] }
    else if ¬ tools.syntax_valid then
      { delta := handle_test_failure s
          ["Syntax error at line " ++ toString tools.syntax_line ++ ": " ++ tools.syntax_err],
        fs := fs1, writes := [(testName, fixed_code)] }
    else if ¬ tools.run_success then
      { delta := handle_test_failure s ["Runtime error: " ++ tools.run_err],
        fs := fs1, writes := [(testName, fixed_code)] }
    else
      let new_score := tools.pylint_score
      let original_score := aoGetNum s.agent_outputs "original_pylint_score" 0
      let tr := judgeRunTests ctx tools testName fixed_code fs1
      let passed := evaluate_success tools.syntax_valid tools.run_success
        (decide (original_score ≤ new_score)) tr.1
      if passed then
        let hs := handle_test_success ctx s new_score tr.2.1
        { delta := hs.1, fs := hs.2.1, writes := [(testName, fixed_code)] ++ tr.2.2 ++ hs.2.2 }
      else
        { delta := handle_test_failure s (tools.pytest_errors ++ tools.pytest_failures),
          fs := tr.2.1, writes := [(testName, fixed_code)] ++ tr.2.2 }

/-! ## Conditions (src/src/workflow/conditions.py) -/

/-- Transcription of should_retry_fix, the conditional router called after
the test node: done and error phases map to themselves, the retry phase
goes back to fix while retry_count < max_iterations and to error otherwise,
and any unknown phase defaults to error. -/
def should_retry_fix (s : WorkflowState) : String :=
  if s.current_phase = "done" then "done"
  else if s.current_phase = "error" then "error"
  else if s.current_phase = "retry" then
    (if s.retry_count < s.max_iterations then "fix" else "error")
  else "error"

/-- Transcription of increment_iteration from conditions.py. The function
exists in the source but is referenced nowhere: neither graph.py nor any
node or agent calls it, so no run ever changes the iteration field. -/
def increment_iteration (s : WorkflowState) : WorkflowState :=
  { s with iteration := s.iteration + 1 }

/-! ## Nodes and graph (src/src/workflow/nodes.py, graph.py)

Each per-step oracle bundle below carries the collaborator outcomes of one
graph step; a run consumes one bundle per step. -/

/-- Collaborator outcomes for one graph step. -/
structure Config where
  plan : AuditReport
  llm : LLMOutcome
  fix_syntax_valid : Bool
  judge : JudgeTools

/-- Transcription of audit_node: run the Auditor and then overwrite
current_phase with fix in the returned updates (the node does this even when
the Auditor error path had set the phase to error). -/
def audit_node (s : WorkflowState) (cfg : Config) : StateDelta :=
  { auditorExecute s cfg.plan with current_phase := some "fix" }

/-- Transcription of fix_node: run the Fixer and then overwrite
current_phase with test in the returned updates. -/
def fix_node (ctx : Ctx) (s : WorkflowState) (cfg : Config) (fs : FS) : FixOut :=
  let r := fixerExecute ctx s cfg.llm cfg.fix_syntax_valid fs
  { r with delta := { r.delta with current_phase := some "test" } }

/-- Transcription of test_node: the judge updates pass through unchanged. -/
def test_node (ctx : Ctx) (s : WorkflowState) (cfg : Config) (fs : FS) : JudgeOut :=
  judgeExecute ctx s cfg.judge fs

/-- Transcription of error_node: mark the phase error and record the final
status in agent_outputs. -/
def error_node (s : WorkflowState) : StateDelta :=
  { emptyDelta with
    current_phase := some "error",
    agent_outputs := some (aoSet s.agent_outputs "final_status"
      (.str "FAILED - Max iterations")) }

/-- Graph positions: the four nodes of graph.py plus the END sentinel. -/
inductive Node where
  | audit
  | fix
  | test
  | error
  | stop
deriving DecidableEq

/-- One driver step of the compiled graph: run the node, merge its delta,
then follow the edge wiring of create_refactoring_graph (audit to fix, fix
to test, conditional edges from test via should_retry_fix, error to END). -/
def runStep (ctx : Ctx) (cfg : Config) (n : Node) (s : WorkflowState) (fs : FS) :
    Node × WorkflowState × FS :=
  match n with
  | .audit => (.fix, applyDelta s (audit_node s cfg), fs)
  | .fix =>
    let r := fix_node ctx s cfg fs
    (.test, applyDelta s r.delta, r.fs)
  | .test =>
    let r := test_node ctx s cfg fs
    let s2 := applyDelta s r.delta
    let route := should_retry_fix s2
    (if route = "fix" then .fix else if route = "done" then .stop else .error, s2, r.fs)
  | .error => (.stop, applyDelta s (error_node s), fs)
  | .stop => (.stop, s, fs)

/-- Final configuration of a graph run: position, state, filesystem, and the
number of times the fix node executed. -/
structure RunResult where
  node : Node
  state : WorkflowState
  fs : FS
  fixCount : Nat

/-- Fuel-indexed driver loop: step until END or fuel runs out, consuming one
oracle bundle per step and counting fix-node executions. -/
def runFrom (env : Nat → Config) (ctx : Ctx) :
    Nat → Nat → Nat → Node → WorkflowState → FS → RunResult
  | 0, _, k, n, s, fs => { node := n, state := s, fs := fs, fixCount := k }
  | _ + 1, _, k, .stop, s, fs => { node := .stop, state := s, fs := fs, fixCount := k }
  | fuel + 1, i, k, n, s, fs =>
    let r := runStep ctx (env i) n s fs
    runFrom env ctx fuel (i + 1) (k + (if n = .fix then 1 else 0)) r.1 r.2.1 r.2.2

/-- Per-file run of the compiled graph from the entry point, with enough
fuel for the loop to reach END (proved below). -/
def graphInvoke (env : Nat → Config) (ctx : Ctx) (s : WorkflowState) (fs : FS) : RunResult :=
  runFrom env ctx (2 * s.max_iterations.toNat + 3) 0 0 .audit s fs

/-! ## Orchestrator (src/src/workflow/orchestrator.py) -/

/-- Transcription of the initial state literal in
RefactoringOrchestrator._process_file. -/
def initialState (file content : String) (maxIter : Int) : WorkflowState :=
  { target_dir := "", current_file := file, file_content := content,
    current_phase := "audit", iteration := 1, max_iterations := maxIter,
    audit_report := none, fix_result := none, test_result := none,
    fixed_content := none, test_errors := [], retry_count := 0,
    agent_outputs := [], errors := [] }

/-- Per-file inputs of one orchestrator run: the enumerated path, the
outcome of the open/read call, and the collaborator outcomes of the graph
steps for that file. -/
structure FileTask where
  path : String
  read : LLMOutcome
  env : Nat → Config

/-- Per-file result dict built by RefactoringOrchestrator._process_file. -/
structure FileRecord where
  file : String
  success : Bool
  final_phase : String
  iterations : Int
  error : Option String
deriving DecidableEq

/-- Record part of _process_file, a pure function of the task: the graph
result state never depends on the filesystem (no node reads a file), so the
record can be computed without threading fs. On a read exception the file is
recorded as failed with the message and processing continues; otherwise the
record reports success as final_phase == done and the final iteration. -/
def processRecord (ctx : Ctx) (maxIter : Int) (t : FileTask) : FileRecord :=
  match t.read with
  | .err e =>
    { file := t.path, success := false, final_phase := "error", iterations := 0,
      error := some e }
  | .ok content =>
    let r := graphInvoke t.env ctx (initialState t.path content maxIter) []
    { file := t.path, success := r.state.current_phase == "done",
      final_phase := r.state.current_phase, iterations := r.state.iteration,
      error := none }

/-- Filesystem left by one _process_file call. -/
def processFS (ctx : Ctx) (maxIter : Int) (t : FileTask) (fs : FS) : FS :=
  match t.read with
  | .err _ => fs
  | .ok content =>
    (graphInvoke t.env ctx (initialState t.path content maxIter) fs).fs

/-- Run-level summary dict of RefactoringOrchestrator.execute. -/
structure OrchSummary where
  success : Bool
  files_processed : Nat
  files_successful : Nat
  files_failed : Nat
  details : List FileRecord

/-- Transcription of the per-file loop and aggregation in
RefactoringOrchestrator.execute: one record per enumerated file, the success
count over the records, and the failure count as the difference. -/
def orchestrate (ctx : Ctx) (maxIter : Int) (tasks : List FileTask) : OrchSummary :=
  match tasks with
  | [] =>
    { success := false, files_processed := 0, files_successful := 0,
      files_failed := 0, details := [] }
  | _ :: _ =>
    let results := tasks.map (processRecord ctx maxIter)
    let success_count := (results.filter (fun r => r.success)).length
    { success := decide (0 < success_count),
      files_processed := results.length,
      files_successful := success_count,
      files_failed := results.length - success_count,
      details := results }

/-- Transcription of RefactoringOrchestrator._get_python_files: os.walk
yields (root, filenames) pairs, every filename ending in .py is joined to
its root, and the joined paths are returned sorted (Python sorted on str,
lexicographic by code point). No directory is excluded. -/
def getPythonFiles (walk : List (String × List String)) : List String :=
  List.insertionSort (fun a b => strLe a b = true)
    (walk.flatMap (fun rd =>
      (rd.2.filter (fun f => strEndsWith f ".py")).map (fun f => rd.1 ++ "/" ++ f)))

/-! ## Helper lemmas -/

/-- Lookup after a store: the stored path reads back the content, any other
path is unaffected. -/
theorem fsGet_fsSet (fs : FS) (p : AbsPath) (c : String) (q : AbsPath) :
    fsGet (fsSet fs p c) q = if p = q then some c else fsGet fs q := by
  by_cases h : p = q <;> simp [fsSet, fsGet, h]

/-- Normalization is the identity on component lists free of dot entries. -/
theorem resolveComps_no_special (l : List String) (h : ∀ c ∈ l, c ≠ "." ∧ c ≠ "..") :
    ∀ acc, resolveComps acc l = acc ++ l := by
  induction l with
  | nil => intro acc; simp [resolveComps]
  | cons c rest ih =>
    intro acc
    have hc := h c (List.mem_cons_self c rest)
    have hrest : ∀ x ∈ rest, x ≠ "." ∧ x ≠ ".." := fun x hx => h x (List.mem_cons_of_mem c hx)
    simp only [resolveComps, if_neg hc.1, if_neg hc.2]
    rw [ih hrest (acc ++ [c])]
    simp

/-- A list is a Boolean prefix of itself extended by anything. -/
theorem isPrefixOf_append (l m : List String) : l.isPrefixOf (l ++ m) = true := by
  induction l with
  | nil => simp [List.isPrefixOf]
  | cons c rest ih => simp [List.isPrefixOf, ih]

/-- Resolution of a sandbox path: with a normalized sandbox root and a
dot-free filename, the resolved path is the root extended by the filename. -/
theorem resolvePath_sandbox (ctx : Ctx) (filename : String)
    (hs : ∀ c ∈ ctx.sandbox_dir, c ≠ "." ∧ c ≠ "..")
    (hf : filename ≠ "." ∧ filename ≠ "..") :
    resolvePath ctx.cwd (get_sandbox_path ctx filename) = ctx.sandbox_dir ++ [filename] := by
  have h : ∀ c ∈ ctx.sandbox_dir ++ [filename], c ≠ "." ∧ c ≠ ".." := by
    intro c hc
    rcases List.mem_append.mp hc with h1 | h1
    · exact hs c h1
    · simp only [List.mem_singleton] at h1
      exact h1 ▸ hf
  simp [resolvePath, get_sandbox_path, resolveComps_no_special _ h []]

/-- Writes through get_sandbox_path always pass the safety check and land at
the sandbox root extended by the filename. -/
theorem write_file_sandbox (ctx : Ctx) (fs : FS) (filename content : String)
    (hs : ∀ c ∈ ctx.sandbox_dir, c ≠ "." ∧ c ≠ "..")
    (hf : filename ≠ "." ∧ filename ≠ "..") :
    write_file ctx fs (get_sandbox_path ctx filename) content
      = (fsSet fs (ctx.sandbox_dir ++ [filename]) content, true) := by
  have hres := resolvePath_sandbox ctx filename hs hf
  have hsafe : is_safe_path ctx (get_sandbox_path ctx filename) = true := by
    simp [is_safe_path, hres, isPrefixOf_append]
  simp [write_file, hsafe, hres]

/-! ## C6: the sandbox write boundary -/

/-- C6. FileTools.write_file rejects, with the filesystem untouched, every
path whose resolution leaves the sandbox root, and for a path resolving
inside the sandbox it writes the content there (a path inside the sandbox)
while leaving every other file unchanged. -/
theorem write_file_boundary (ctx : Ctx) (fs : FS) (p : PyPath) (content : String) :
    (is_safe_path ctx p = false → write_file ctx fs p content = (fs, false)) ∧
    (is_safe_path ctx p = true →
      (write_file ctx fs p content).2 = true ∧
      ctx.sandbox_dir.isPrefixOf (resolvePath ctx.cwd p) = true ∧
      fsGet (write_file ctx fs p content).1 (resolvePath ctx.cwd p) = some content ∧
      ∀ q, q ≠ resolvePath ctx.cwd p →
        fsGet (write_file ctx fs p content).1 q = fsGet fs q) := by
  constructor
  · intro h
    simp [write_file, h]
  · intro h
    refine ⟨by simp [write_file, h], ?_, ?_, ?_⟩
    · simpa [is_safe_path] using h
    · simp [write_file, h, fsGet_fsSet]
    · intro q hq
      simp [write_file, h, fsGet_fsSet, Ne.symm hq]

/-- Witness for C6, the traversal scenario of the spec: the sandbox is
cwd/sandbox, the write target ../outside.py resolves to a sibling of the
cwd, the write is rejected, and the pre-existing outside file keeps its
original content. A write to a plain sandbox filename succeeds. -/
theorem write_file_boundary_witness :
    (is_safe_path { cwd := ["home", "user"], sandbox_dir := ["home", "user", "sandbox"] }
        { absolute := false, comps := ["..", "outside.py"] } = false) ∧
    (write_file { cwd := ["home", "user"], sandbox_dir := ["home", "user", "sandbox"] }
        [(["home", "outside.py"], "original")]
        { absolute := false, comps := ["..", "outside.py"] } "evil"
      = ([(["home", "outside.py"], "original")], false)) ∧
    fsGet [(["home", "outside.py"], "original")] ["home", "outside.py"] = some "original" ∧
    (write_file { cwd := ["home", "user"], sandbox_dir := ["home", "user", "sandbox"] }
        [] { absolute := true, comps := ["home", "user", "sandbox", "a.py"] } "code").2 = true := by
  refine ⟨by decide, ?_, by decide, ?_⟩
  · exact (write_file_boundary _ _ _ _).1 (by decide)
  · exact ((write_file_boundary
      { cwd := ["home", "user"], sandbox_dir := ["home", "user", "sandbox"] } []
      { absolute := true, comps := ["home", "user", "sandbox", "a.py"] } "code").2 (by decide)).1

/-! ## Judge lemmas, C2 and C10 -/

/-- Test outcome of a judge pass is the pytest oracle result in both the
embedded-test and the generated-test branch. -/
theorem judgeRunTests_passed (ctx : Ctx) (tools : JudgeTools) (tn code : String) (fs : FS) :
    (judgeRunTests ctx tools tn code fs).1 = tools.pytest_passed := by
  by_cases h : (strContains code "def test_" || strContains code "class Test") = true <;>
    simp [judgeRunTests, h]

/-- Failure handler phase is retry below the cap and error at it, never
done. -/
theorem handle_test_failure_phase (s : WorkflowState) (errors : List String) :
    (handle_test_failure s errors).current_phase = some "retry" ∨
    (handle_test_failure s errors).current_phase = some "error" := by
  by_cases h : s.retry_count < s.max_iterations - 1 <;> simp [handle_test_failure, h]

/-- Failure handler never reports the done phase. -/
theorem handle_test_failure_ne_done (s : WorkflowState) (errors : List String) :
    (handle_test_failure s errors).current_phase ≠ some "done" := by
  rcases handle_test_failure_phase s errors with h | h <;> rw [h] <;> simp

/-- Empty judged code characterized: exactly when fixed_content is falsy and
file_content is empty. -/
theorem judgeFixedCode_empty_iff (s : WorkflowState) :
    judgeFixedCode s = "" ↔
      ((s.fixed_content = none ∨ s.fixed_content = some "") ∧ s.file_content = "") := by
  unfold judgeFixedCode
  match h : s.fixed_content with
  | none => simp
  | some c => by_cases hc : c = "" <;> simp [hc]

/-- C2. The Judge verdict is success, with phase done, exactly when the
syntax check passes, the safe run succeeds, and the new pylint score is at
least the baseline read from agent_outputs["original_pylint_score"]
(defaulting to 0.0) or the tests passed. -/
theorem judge_verdict (ctx : Ctx) (s : WorkflowState) (tools : JudgeTools) (fs : FS)
    (h1 : judgeFixedCode s ≠ "") (h2 : tools.prepare_ok = true) :
    ((judgeExecute ctx s tools fs).delta.current_phase = some "done" ↔
      (tools.syntax_valid = true ∧ tools.run_success = true ∧
        (aoGetNum s.agent_outputs "original_pylint_score" 0 ≤ tools.pylint_score ∨
         tools.pytest_passed = true))) := by
  by_cases hsv : tools.syntax_valid = true
  · by_cases hrs : tools.run_success = true
    · by_cases hp : (evaluate_success true true
          (decide (aoGetNum s.agent_outputs "original_pylint_score" 0 ≤ tools.pylint_score))
          tools.pytest_passed) = true
      · simp only [judgeExecute, if_neg h1, h2, hsv, hrs, Bool.not_true, Bool.false_eq_true,
          if_false, judgeRunTests_passed, hp, if_true, not_true, ite_true, ite_false]
        refine iff_of_true rfl ⟨trivial, trivial, ?_⟩
        have hh := hp
        simp only [evaluate_success, not_true, ite_false, Bool.or_eq_true,
          decide_eq_true_eq, if_false] at hh
        simpa using hh
      · simp only [judgeExecute, if_neg h1, h2, hsv, hrs, Bool.not_true, Bool.false_eq_true,
          if_false, judgeRunTests_passed, hp, not_true, ite_true, ite_false]
        refine iff_of_false (handle_test_failure_ne_done _ _) ?_
        rintro ⟨-, -, hor⟩
        apply hp
        simp only [evaluate_success, not_true, ite_false, Bool.or_eq_true,
          decide_eq_true_eq, if_false]
        simpa using hor
    · have hrs2 : tools.run_success = false := by simpa using hrs
      simp only [judgeExecute, if_neg h1, h2, hsv, hrs2, Bool.not_true, Bool.not_false,
        not_true, not_false_iff, ite_true, ite_false]
      exact iff_of_false (handle_test_failure_ne_done _ _) (by simp [hrs2])
  · have hsv2 : tools.syntax_valid = false := by simpa using hsv
    simp only [judgeExecute, if_neg h1, h2, hsv2, Bool.not_true, Bool.not_false,
      not_true, not_false_iff, ite_true, ite_false]
    exact iff_of_false (handle_test_failure_ne_done _ _) (by simp [hsv2])

/-- Witness for C2: a passing pass (valid syntax, clean run, score 5 at
least the default baseline 0) yields phase done. -/
theorem judge_verdict_witness :
    (judgeExecute { cwd := ["r"], sandbox_dir := ["r", "sandbox"] }
        (initialState "proj/f.py" "x = 1" 10)
        { prepare_ok := true, prepare_err := "", syntax_valid := true, syntax_err := "",
          syntax_line := 0, run_success := true, run_err := "", pylint_score := 5,
          pytest_passed := false, pytest_failures := [], pytest_errors := [] }
        []).delta.current_phase = some "done" :=
  (judge_verdict _ _ _ _ (by decide) (by decide)).mpr (by decide)

/-- C10. The Judge falls back to the original file content whenever
fixed_content is absent or empty: the judged code is then file_content and
the first sandbox write carries it; the pass returns the no-code error
result, performing no write, precisely when fixed_content is falsy and
file_content is empty too. -/
theorem judge_missing_code_fallback (ctx : Ctx) (s : WorkflowState) (tools : JudgeTools)
    (fs : FS) :
    ((s.fixed_content = none ∨ s.fixed_content = some "") →
      judgeFixedCode s = s.file_content) ∧
    (judgeFixedCode s ≠ "" →
      (judgeExecute ctx s tools fs).writes.head? =
        some ("test_" ++ pathName s.current_file, judgeFixedCode s)) ∧
    (judgeExecute ctx s tools fs =
        { delta := create_error_result "JudgeAgent" s "No code to test", fs := fs, writes := [] }
      ↔ ((s.fixed_content = none ∨ s.fixed_content = some "") ∧ s.file_content = "")) := by
  have hfall : (s.fixed_content = none ∨ s.fixed_content = some "") →
      judgeFixedCode s = s.file_content := by
    intro h
    rcases h with h | h <;> simp [judgeFixedCode, h]
  have hwrites : judgeFixedCode s ≠ "" →
      (judgeExecute ctx s tools fs).writes.head? =
        some ("test_" ++ pathName s.current_file, judgeFixedCode s) := by
    intro h
    simp only [judgeExecute, if_neg h]
    by_cases hprep : tools.prepare_ok = true <;>
      by_cases hsv : tools.syntax_valid = true <;>
      by_cases hrs : tools.run_success = true <;>
      simp [hprep, hsv, hrs] <;>
      split <;> simp
  refine ⟨hfall, hwrites, ?_, ?_⟩
  · intro heq
    by_cases h : judgeFixedCode s = ""
    · exact (judgeFixedCode_empty_iff s).mp h
    · exfalso
      have hh := hwrites h
      rw [heq] at hh
      simp at hh
  · intro h
    have : judgeFixedCode s = "" := (judgeFixedCode_empty_iff s).mpr h
    simp [judgeExecute, this]

/-- Witness for C10: with fixed_content absent and file content nonempty the
Judge tests the original content; with both empty it returns the no-code
error result. -/
theorem judge_missing_code_fallback_witness :
    (judgeFixedCode (initialState "proj/f.py" "x = 1" 10) = "x = 1" ∧
      (judgeExecute { cwd := ["r"], sandbox_dir := ["r", "sandbox"] }
          (initialState "proj/f.py" "x = 1" 10)
          { prepare_ok := true, prepare_err := "", syntax_valid := true, syntax_err := "",
            syntax_line := 0, run_success := true, run_err := "", pylint_score := 5,
            pytest_passed := false, pytest_failures := [], pytest_errors := [] }
          []).writes.head? = some ("test_f.py", "x = 1")) ∧
    judgeExecute { cwd := ["r"], sandbox_dir := ["r", "sandbox"] }
        (initialState "proj/g.py" "" 10)
        { prepare_ok := true, prepare_err := "", syntax_valid := true, syntax_err := "",
          syntax_line := 0, run_success := true, run_err := "", pylint_score := 5,
          pytest_passed := false, pytest_failures := [], pytest_errors := [] }
        []
      = { delta := create_error_result "JudgeAgent" (initialState "proj/g.py" "" 10)
            "No code to test",
          fs := [], writes := [] } := by
  refine ⟨⟨?_, ?_⟩, ?_⟩
  · exact (judge_missing_code_fallback { cwd := ["r"], sandbox_dir := ["r", "sandbox"] }
      (initialState "proj/f.py" "x = 1" 10)
      { prepare_ok := true, prepare_err := "", syntax_valid := true, syntax_err := "",
        syntax_line := 0, run_success := true, run_err := "", pylint_score := 5,
        pytest_passed := false, pytest_failures := [], pytest_errors := [] } []).1
      (Or.inl rfl)
  · have h := (judge_missing_code_fallback { cwd := ["r"], sandbox_dir := ["r", "sandbox"] }
      (initialState "proj/f.py" "x = 1" 10)
      { prepare_ok := true, prepare_err := "", syntax_valid := true, syntax_err := "",
        syntax_line := 0, run_success := true, run_err := "", pylint_score := 5,
        pytest_passed := false, pytest_failures := [], pytest_errors := [] } []).2.1
      (by decide)
    simpa using h
  · exact (judge_missing_code_fallback { cwd := ["r"], sandbox_dir := ["r", "sandbox"] }
      (initialState "proj/g.py" "" 10)
      { prepare_ok := true, prepare_err := "", syntax_valid := true, syntax_err := "",
        syntax_line := 0, run_success := true, run_err := "", pylint_score := 5,
        pytest_passed := false, pytest_failures := [], pytest_errors := [] } []).2.2.mpr
      (by decide)

/-! ## State-machine lemmas for the loop bound and the retry counter -/

/-- Applying any delta never changes the iteration field: no source return
dict carries an iteration key. -/
theorem applyDelta_iteration (s : WorkflowState) (d : StateDelta) :
    (applyDelta s d).iteration = s.iteration := rfl

/-- Applying any delta never changes max_iterations. -/
theorem applyDelta_max_iterations (s : WorkflowState) (d : StateDelta) :
    (applyDelta s d).max_iterations = s.max_iterations := rfl

/-- Applying any delta never changes current_file. -/
theorem applyDelta_current_file (s : WorkflowState) (d : StateDelta) :
    (applyDelta s d).current_file = s.current_file := rfl

/-- The audit node delta carries no retry_count key. -/
theorem audit_node_retry (s : WorkflowState) (cfg : Config) :
    (audit_node s cfg).retry_count = none := by
  by_cases h : s.file_content = "" <;>
    simp [audit_node, auditorExecute, auditorErrorResult, emptyDelta, h]

/-- The fix node delta carries no retry_count key. -/
theorem fix_node_delta_retry (ctx : Ctx) (s : WorkflowState) (cfg : Config) (fs : FS) :
    (fix_node ctx s cfg fs).delta.retry_count = none := by
  by_cases h : fixerBaseCode s = ""
  · simp [fix_node, fixerExecute, create_error_result, emptyDelta, h]
  · cases hl : cfg.llm <;>
      simp [fix_node, fixerExecute, create_error_result, emptyDelta, h, hl]

/-- The fix node delta always sets the phase to test. -/
theorem fix_node_delta_phase (ctx : Ctx) (s : WorkflowState) (cfg : Config) (fs : FS) :
    (fix_node ctx s cfg fs).delta.current_phase = some "test" := rfl

/-- Cap check inside the failure handler: retry incremented with phase retry
strictly below max_iterations - 1, otherwise no increment and phase error. -/
theorem handle_test_failure_cases (s : WorkflowState) (errors : List String) :
    (s.retry_count < s.max_iterations - 1 ∧
     (handle_test_failure s errors).retry_count = some (s.retry_count + 1) ∧
     (handle_test_failure s errors).current_phase = some "retry") ∨
    (¬ s.retry_count < s.max_iterations - 1 ∧
     (handle_test_failure s errors).retry_count = none ∧
     (handle_test_failure s errors).current_phase = some "error") := by
  by_cases h : s.retry_count < s.max_iterations - 1 <;> simp [handle_test_failure, h, emptyDelta]

/-- The judge delta is an error result, a failure-handler delta, or a
success-handler delta. -/
theorem judge_delta_form (ctx : Ctx) (s : WorkflowState) (tools : JudgeTools) (fs : FS) :
    (∃ msg, (judgeExecute ctx s tools fs).delta = create_error_result "JudgeAgent" s msg) ∨
    (∃ errors, (judgeExecute ctx s tools fs).delta = handle_test_failure s errors) ∨
    (∃ score fs2, (judgeExecute ctx s tools fs).delta = (handle_test_success ctx s score fs2).1) := by
  by_cases h1 : judgeFixedCode s = ""
  · exact Or.inl ⟨"No code to test", by simp [judgeExecute, h1]⟩
  · simp only [judgeExecute, if_neg h1]
    by_cases hprep : tools.prepare_ok = true <;>
      by_cases hsv : tools.syntax_valid = true <;>
      by_cases hrs : tools.run_success = true <;>
      simp [hprep, hsv, hrs] <;>
      split
    all_goals first
      | (left; exact ⟨_, rfl⟩)
      | (right; left; exact ⟨_, rfl⟩)
      | (right; right;
         exact ⟨tools.pylint_score,
           (judgeRunTests ctx tools ("test_" ++ pathName s.current_file) (judgeFixedCode s)
             (write_file ctx fs (get_sandbox_path ctx ("test_" ++ pathName s.current_file))
               (judgeFixedCode s)).1).2.1, rfl⟩)

/-- Retry behaviour of one judge pass: either the delta leaves retry_count
alone and does not set the phase to retry, or it increments by exactly one,
sets the phase to retry, and the pre-increment counter was strictly below
max_iterations - 1. -/
theorem judge_delta_cases (ctx : Ctx) (s : WorkflowState) (tools : JudgeTools) (fs : FS) :
    ((judgeExecute ctx s tools fs).delta.retry_count = none ∧
     (judgeExecute ctx s tools fs).delta.current_phase ≠ some "retry") ∨
    ((judgeExecute ctx s tools fs).delta.retry_count = some (s.retry_count + 1) ∧
     (judgeExecute ctx s tools fs).delta.current_phase = some "retry" ∧
     s.retry_count < s.max_iterations - 1) := by
  rcases judge_delta_form ctx s tools fs with ⟨msg, h⟩ | ⟨errors, h⟩ | ⟨score, fs2, h⟩
  · rw [h]
    exact Or.inl ⟨rfl, by simp [create_error_result, emptyDelta]⟩
  · rw [h]
    rcases handle_test_failure_cases s errors with ⟨hc, h2, h3⟩ | ⟨hc, h2, h3⟩
    · exact Or.inr ⟨h2, h3, hc⟩
    · refine Or.inl ⟨h2, ?_⟩
      rw [h3]
      simp
  · rw [h]
    refine Or.inl ⟨rfl, ?_⟩
    have hph : ((handle_test_success ctx s score fs2).1).current_phase = some "done" := rfl
    rw [hph]
    simp

/-- Phase after a delta merge. -/
theorem applyDelta_phase (s : WorkflowState) (d : StateDelta) :
    (applyDelta s d).current_phase = d.current_phase.getD s.current_phase := rfl

/-- Retry count after a delta merge. -/
theorem applyDelta_retry (s : WorkflowState) (d : StateDelta) :
    (applyDelta s d).retry_count = d.retry_count.getD s.retry_count := rfl

/-- Routing outcomes of should_retry_fix: done on the done phase, fix on the
retry phase below the cap, error otherwise. -/
theorem route_next (s2 : WorkflowState) :
    (s2.current_phase = "done" ∧ should_retry_fix s2 = "done") ∨
    (s2.current_phase = "retry" ∧ s2.retry_count < s2.max_iterations ∧
      should_retry_fix s2 = "fix") ∨
    (should_retry_fix s2 = "error") := by
  unfold should_retry_fix
  by_cases h1 : s2.current_phase = "done"
  · exact Or.inl ⟨h1, by simp [h1]⟩
  · by_cases h2 : s2.current_phase = "error"
    · right; right; simp [h1, h2]
    · by_cases h3 : s2.current_phase = "retry"
      · by_cases h4 : s2.retry_count < s2.max_iterations
        · right; left; exact ⟨h3, h4, by simp [h1, h2, h3, h4]⟩
        · right; right; simp [h1, h2, h3, h4]
      · right; right; simp [h1, h2, h3]

/-- Inductive invariant of the graph driver, tying the fix-execution count
k to the retry counter at every node. -/
def NodeInv (N : Int) (k : Nat) (n : Node) (s : WorkflowState) : Prop :=
  s.max_iterations = N ∧ 0 ≤ s.retry_count ∧ s.retry_count ≤ N ∧
  (match n with
   | .audit => k = 0 ∧ s.retry_count = 0
   | .fix => (k : Int) = s.retry_count ∧ s.retry_count + 1 ≤ N
   | .test => (k : Int) = s.retry_count + 1 ∧ (k : Int) ≤ N ∧ s.current_phase = "test"
   | .error => (k : Int) ≤ N
   | .stop => (k : Int) ≤ N ∧ (s.current_phase = "done" ∨ s.current_phase = "error"))

/-- Termination measure of the driver. -/
def nodeMeasure (N : Int) (n : Node) (s : WorkflowState) : Nat :=
  match n with
  | .stop => 0
  | .error => 1
  | .test => 2 * (N - s.retry_count).toNat
  | .fix => 2 * (N - s.retry_count).toNat + 1
  | .audit => 2 * N.toNat + 2

/-- One driver step preserves the invariant and, away from END, strictly
decreases the measure. -/
theorem runStep_step (ctx : Ctx) (cfg : Config) (N : Int) (hN : 1 ≤ N) (k : Nat) (n : Node)
    (s : WorkflowState) (fs : FS) (h : NodeInv N k n s) :
    NodeInv N (k + (if n = Node.fix then 1 else 0)) (runStep ctx cfg n s fs).1
        (runStep ctx cfg n s fs).2.1 ∧
    (n ≠ Node.stop →
      nodeMeasure N (runStep ctx cfg n s fs).1 (runStep ctx cfg n s fs).2.1 < nodeMeasure N n s) := by
  obtain ⟨hmax, hr0, hrN, hn⟩ := h
  cases n with
  | audit =>
    obtain ⟨hk, hr⟩ := hn
    have hret : (applyDelta s (audit_node s cfg)).retry_count = s.retry_count := by
      rw [applyDelta_retry, audit_node_retry]
      rfl
    have hmax2 : (applyDelta s (audit_node s cfg)).max_iterations = N :=
      (applyDelta_max_iterations s _).trans hmax
    constructor
    · show NodeInv N (k + 0) Node.fix (applyDelta s (audit_node s cfg))
      exact ⟨hmax2, by omega, by omega, by omega, by omega⟩
    · intro _
      show nodeMeasure N Node.fix (applyDelta s (audit_node s cfg)) < nodeMeasure N Node.audit s
      simp only [nodeMeasure]
      omega
  | fix =>
    obtain ⟨hk, hr⟩ := hn
    have hret : (applyDelta s (fix_node ctx s cfg fs).delta).retry_count = s.retry_count := by
      rw [applyDelta_retry, fix_node_delta_retry]
      rfl
    have hph : (applyDelta s (fix_node ctx s cfg fs).delta).current_phase = "test" := by
      rw [applyDelta_phase, fix_node_delta_phase]
      rfl
    have hmax2 : (applyDelta s (fix_node ctx s cfg fs).delta).max_iterations = N :=
      (applyDelta_max_iterations s _).trans hmax
    constructor
    · show NodeInv N (k + 1) Node.test (applyDelta s (fix_node ctx s cfg fs).delta)
      exact ⟨hmax2, by omega, by omega, by omega, by omega, hph⟩
    · intro _
      show nodeMeasure N Node.test (applyDelta s (fix_node ctx s cfg fs).delta)
          < nodeMeasure N Node.fix s
      simp only [nodeMeasure]
      omega
  | test =>
    obtain ⟨hk, hkN, hph⟩ := hn
    have hdeq : (test_node ctx s cfg fs).delta = (judgeExecute ctx s cfg.judge fs).delta := rfl
    have hmax2 : (applyDelta s (test_node ctx s cfg fs).delta).max_iterations = N :=
      (applyDelta_max_iterations s _).trans hmax
    have hNr : (1 : Int) ≤ N - s.retry_count := by omega
    rcases judge_delta_cases ctx s cfg.judge fs with ⟨hdr, hdp⟩ | ⟨hdr, hdp, hcap⟩
    · have hret : (applyDelta s (test_node ctx s cfg fs).delta).retry_count = s.retry_count := by
        rw [applyDelta_retry, hdeq, hdr]
        rfl
      have hs2ph : (applyDelta s (test_node ctx s cfg fs).delta).current_phase ≠ "retry" := by
        rw [applyDelta_phase, hdeq]
        match hd : (judgeExecute ctx s cfg.judge fs).delta.current_phase with
        | none => simp [hph]
        | some p =>
          rw [hd] at hdp
          simp only [Option.getD]
          intro hcon
          exact hdp (by rw [hcon])
      rcases route_next (applyDelta s (test_node ctx s cfg fs).delta) with
        ⟨hp2, hrt⟩ | ⟨hp2, hlt2, hrt⟩ | hrt
      · simp only [runStep, hrt]
        constructor
        · show NodeInv N (k + 0) Node.stop (applyDelta s (test_node ctx s cfg fs).delta)
          exact ⟨hmax2, by omega, by omega, by omega, Or.inl hp2⟩
        · intro _
          show nodeMeasure N Node.stop (applyDelta s (test_node ctx s cfg fs).delta)
              < nodeMeasure N Node.test s
          simp only [nodeMeasure]
          omega
      · exact absurd hp2 hs2ph
      · simp only [runStep, hrt]
        constructor
        · show NodeInv N (k + 0) Node.error (applyDelta s (test_node ctx s cfg fs).delta)
          exact ⟨hmax2, by omega, by omega, by omega⟩
        · intro _
          show nodeMeasure N Node.error (applyDelta s (test_node ctx s cfg fs).delta)
              < nodeMeasure N Node.test s
          simp only [nodeMeasure]
          omega
    · have hret : (applyDelta s (test_node ctx s cfg fs).delta).retry_count
          = s.retry_count + 1 := by
        rw [applyDelta_retry, hdeq, hdr]
        rfl
      have hs2ph : (applyDelta s (test_node ctx s cfg fs).delta).current_phase = "retry" := by
        rw [applyDelta_phase, hdeq, hdp]
        rfl
      rcases route_next (applyDelta s (test_node ctx s cfg fs).delta) with
        ⟨hp2, hrt⟩ | ⟨hp2, hlt2, hrt⟩ | hrt
      · rw [hs2ph] at hp2
        simp at hp2
      · simp only [runStep, hrt]
        constructor
        · show NodeInv N (k + 0) Node.fix (applyDelta s (test_node ctx s cfg fs).delta)
          exact ⟨hmax2, by omega, by omega, by omega, by omega⟩
        · intro _
          show nodeMeasure N Node.fix (applyDelta s (test_node ctx s cfg fs).delta)
              < nodeMeasure N Node.test s
          simp only [nodeMeasure]
          omega
      · simp only [runStep, hrt]
        constructor
        · show NodeInv N (k + 0) Node.error (applyDelta s (test_node ctx s cfg fs).delta)
          exact ⟨hmax2, by omega, by omega, by omega⟩
        · intro _
          show nodeMeasure N Node.error (applyDelta s (test_node ctx s cfg fs).delta)
              < nodeMeasure N Node.test s
          simp only [nodeMeasure]
          omega
  | error =>
    have hret : (applyDelta s (error_node s)).retry_count = s.retry_count := by
      rw [applyDelta_retry]
      rfl
    have hph2 : (applyDelta s (error_node s)).current_phase = "error" := by
      rw [applyDelta_phase]
      rfl
    have hmax2 : (applyDelta s (error_node s)).max_iterations = N :=
      (applyDelta_max_iterations s _).trans hmax
    constructor
    · show NodeInv N (k + 0) Node.stop (applyDelta s (error_node s))
      exact ⟨hmax2, by omega, by omega, by simpa using hn, Or.inr hph2⟩
    · intro _
      show nodeMeasure N Node.stop (applyDelta s (error_node s)) < nodeMeasure N Node.error s
      simp [nodeMeasure]
  | stop =>
    constructor
    · show NodeInv N (k + 0) Node.stop s
      exact ⟨hmax, hr0, hrN, hn⟩
    · intro hcon
      exact absurd rfl hcon

/-- The driver preserves the invariant for any amount of fuel. -/
theorem runFrom_inv (env : Nat → Config) (ctx : Ctx) (N : Int) (hN : 1 ≤ N) :
    ∀ fuel i k n s fs, NodeInv N k n s →
      NodeInv N (runFrom env ctx fuel i k n s fs).fixCount
        (runFrom env ctx fuel i k n s fs).node (runFrom env ctx fuel i k n s fs).state := by
  intro fuel
  induction fuel with
  | zero => intro i k n s fs h; simpa [runFrom] using h
  | succ m ih =>
    intro i k n s fs h
    cases n with
    | stop => simpa [runFrom] using h
    | audit =>
      have hs := (runStep_step ctx (env i) N hN k .audit s fs h).1
      simpa [runFrom] using ih (i + 1) _ _ _ _ hs
    | fix =>
      have hs := (runStep_step ctx (env i) N hN k .fix s fs h).1
      simpa [runFrom] using ih (i + 1) _ _ _ _ hs
    | test =>
      have hs := (runStep_step ctx (env i) N hN k .test s fs h).1
      simpa [runFrom] using ih (i + 1) _ _ _ _ hs
    | error =>
      have hs := (runStep_step ctx (env i) N hN k .error s fs h).1
      simpa [runFrom] using ih (i + 1) _ _ _ _ hs

/-- With fuel at least the measure, the driver reaches END. -/
theorem runFrom_stops (env : Nat → Config) (ctx : Ctx) (N : Int) (hN : 1 ≤ N) :
    ∀ fuel i k n s fs, NodeInv N k n s → nodeMeasure N n s ≤ fuel →
      (runFrom env ctx fuel i k n s fs).node = Node.stop := by
  intro fuel
  induction fuel with
  | zero =>
    intro i k n s fs h hm
    obtain ⟨hmax, hr0, hrN, hn⟩ := h
    cases n with
    | stop => simp [runFrom]
    | audit => simp only [nodeMeasure] at hm; omega
    | fix =>
      obtain ⟨hk, hr⟩ := hn
      simp only [nodeMeasure] at hm
      omega
    | test =>
      obtain ⟨hk, hkN, hph⟩ := hn
      simp only [nodeMeasure] at hm
      omega
    | error => simp only [nodeMeasure] at hm; omega
  | succ m ih =>
    intro i k n s fs h hm
    cases hn : decide (n = Node.stop) with
    | true =>
      have hn2 : n = Node.stop := of_decide_eq_true hn
      subst hn2
      simp [runFrom]
    | false =>
      have hn2 : n ≠ Node.stop := of_decide_eq_false hn
      have hstep := runStep_step ctx (env i) N hN k n s fs h
      have hdec := hstep.2 hn2
      have hrec := ih (i + 1) (k + (if n = Node.fix then 1 else 0))
        (runStep ctx (env i) n s fs).1 (runStep ctx (env i) n s fs).2.1
        (runStep ctx (env i) n s fs).2.2 hstep.1 (by omega)
      cases n with
      | stop => exact absurd rfl hn2
      | audit => simpa [runFrom] using hrec
      | fix => simpa [runFrom] using hrec
      | test => simpa [runFrom] using hrec
      | error => simpa [runFrom] using hrec

/-! ## C1: the bounded fix-test loop -/

/-- C1. For every oracle environment and every cap N at least 1, the graph
run from the initial state reaches END, the fix node (hence the fix-test
loop body) executes at most N times, and the final phase is done or error. -/
theorem fix_loop_bounded (env : Nat → Config) (ctx : Ctx) (file content : String)
    (N : Int) (fs : FS) (hN : 1 ≤ N) :
    (graphInvoke env ctx (initialState file content N) fs).node = Node.stop ∧
    ((graphInvoke env ctx (initialState file content N) fs).fixCount : Int) ≤ N ∧
    ((graphInvoke env ctx (initialState file content N) fs).state.current_phase = "done" ∨
     (graphInvoke env ctx (initialState file content N) fs).state.current_phase = "error") := by
  have h0 : NodeInv N 0 Node.audit (initialState file content N) :=
    ⟨rfl, le_refl 0, by simp only [initialState]; omega, rfl, rfl⟩
  have hfuel : nodeMeasure N Node.audit (initialState file content N)
      ≤ 2 * (initialState file content N).max_iterations.toNat + 3 := by
    simp only [nodeMeasure, initialState]
    omega
  have hstop := runFrom_stops env ctx N hN
    (2 * (initialState file content N).max_iterations.toNat + 3) 0 0 Node.audit
    (initialState file content N) fs h0 hfuel
  have hinv := runFrom_inv env ctx N hN
    (2 * (initialState file content N).max_iterations.toNat + 3) 0 0 Node.audit
    (initialState file content N) fs h0
  rw [hstop] at hinv
  obtain ⟨hmax, hr0, hrN, hkN, hphase⟩ := hinv
  exact ⟨hstop, hkN, hphase⟩

/-- Witness for C1: with cap 2 and a judge that always fails, the run
reaches END with exactly 2 fix executions and final phase error. -/
theorem fix_loop_bounded_witness :
    (1 : Int) ≤ 2 ∧
    (graphInvoke (fun _ =>
        { plan := fixerDefaultReport, llm := LLMOutcome.ok "x = 1", fix_syntax_valid := true,
          judge := { prepare_ok := true, prepare_err := "", syntax_valid := false,
                     syntax_err := "bad", syntax_line := 1, run_success := true, run_err := "",
                     pylint_score := 5, pytest_passed := false, pytest_failures := [],
                     pytest_errors := [] } })
      { cwd := ["r"], sandbox_dir := ["r", "sandbox"] }
      (initialState "proj/f.py" "x = 1" 2) []).node = Node.stop ∧
    ((graphInvoke (fun _ =>
        { plan := fixerDefaultReport, llm := LLMOutcome.ok "x = 1", fix_syntax_valid := true,
          judge := { prepare_ok := true, prepare_err := "", syntax_valid := false,
                     syntax_err := "bad", syntax_line := 1, run_success := true, run_err := "",
                     pylint_score := 5, pytest_passed := false, pytest_failures := [],
                     pytest_errors := [] } })
      { cwd := ["r"], sandbox_dir := ["r", "sandbox"] }
      (initialState "proj/f.py" "x = 1" 2) []).fixCount : Int) ≤ 2 := by
  refine ⟨by decide, ?_, ?_⟩
  · exact (fix_loop_bounded _ _ "proj/f.py" "x = 1" 2 [] (by decide)).1
  · exact (fix_loop_bounded _ _ "proj/f.py" "x = 1" 2 [] (by decide)).2.1

/-! ## C5: the retry counter -/

/-- No driver step changes max_iterations. -/
theorem runStep_max_iter (ctx : Ctx) (cfg : Config) (n : Node) (s : WorkflowState) (fs : FS) :
    (runStep ctx cfg n s fs).2.1.max_iterations = s.max_iterations := by
  cases n <;> rfl

/-- No driver step decreases retry_count. -/
theorem runStep_retry_mono (ctx : Ctx) (cfg : Config) (n : Node) (s : WorkflowState) (fs : FS) :
    s.retry_count ≤ (runStep ctx cfg n s fs).2.1.retry_count := by
  cases n with
  | audit =>
    have h : (runStep ctx cfg Node.audit s fs).2.1.retry_count = s.retry_count := by
      show (applyDelta s (audit_node s cfg)).retry_count = s.retry_count
      rw [applyDelta_retry, audit_node_retry]
      rfl
    omega
  | fix =>
    have h : (runStep ctx cfg Node.fix s fs).2.1.retry_count = s.retry_count := by
      show (applyDelta s (fix_node ctx s cfg fs).delta).retry_count = s.retry_count
      rw [applyDelta_retry, fix_node_delta_retry]
      rfl
    omega
  | test =>
    have hdeq : (test_node ctx s cfg fs).delta = (judgeExecute ctx s cfg.judge fs).delta := rfl
    have h : (runStep ctx cfg Node.test s fs).2.1.retry_count
        = (applyDelta s (test_node ctx s cfg fs).delta).retry_count := rfl
    rcases judge_delta_cases ctx s cfg.judge fs with ⟨hdr, -⟩ | ⟨hdr, -, -⟩ <;>
      rw [h, applyDelta_retry, hdeq, hdr] <;> simp
  | error =>
    have h : (runStep ctx cfg Node.error s fs).2.1.retry_count = s.retry_count := by
      show (applyDelta s (error_node s)).retry_count = s.retry_count
      rw [applyDelta_retry]
      rfl
    omega
  | stop => exact le_refl _

/-- A test step that routes back to fix increments retry_count by exactly
one, and only fires strictly below the cap. -/
theorem runStep_test_fix_increment (ctx : Ctx) (cfg : Config) (s : WorkflowState) (fs : FS)
    (hph : s.current_phase = "test") (hfix : (runStep ctx cfg Node.test s fs).1 = Node.fix) :
    (runStep ctx cfg Node.test s fs).2.1.retry_count = s.retry_count + 1 ∧
    s.retry_count < s.max_iterations - 1 := by
  have hdeq : (test_node ctx s cfg fs).delta = (judgeExecute ctx s cfg.judge fs).delta := rfl
  rcases judge_delta_cases ctx s cfg.judge fs with ⟨hdr, hdp⟩ | ⟨hdr, hdp, hcap⟩
  · exfalso
    have hs2ph : (applyDelta s (test_node ctx s cfg fs).delta).current_phase ≠ "retry" := by
      rw [applyDelta_phase, hdeq]
      match hd : (judgeExecute ctx s cfg.judge fs).delta.current_phase with
      | none => simp [hph]
      | some p =>
        rw [hd] at hdp
        simp only [Option.getD]
        intro hcon
        exact hdp (by rw [hcon])
    rcases route_next (applyDelta s (test_node ctx s cfg fs).delta) with
      ⟨hp2, hrt⟩ | ⟨hp2, hlt2, hrt⟩ | hrt
    · simp only [runStep, hrt] at hfix
      exact absurd hfix (by decide)
    · exact hs2ph hp2
    · simp only [runStep, hrt] at hfix
      exact absurd hfix (by decide)
  · refine ⟨?_, hcap⟩
    show (applyDelta s (test_node ctx s cfg fs).delta).retry_count = s.retry_count + 1
    rw [applyDelta_retry, hdeq, hdr]
    rfl

/-- C5. The retry counter starts at 0, never decreases under any driver
step, increases by exactly 1 on each failed judge verdict that routes back
to fix (only below the cap), keeps the invariant
retry_count at most max_iterations under every step, and that invariant
holds in the final state of every run. -/
theorem retry_counter_props (ctx : Ctx) :
    (∀ file content maxIter, (initialState file content maxIter).retry_count = 0) ∧
    (∀ cfg n s fs, s.retry_count ≤ (runStep ctx cfg n s fs).2.1.retry_count) ∧
    (∀ cfg s fs, s.current_phase = "test" → (runStep ctx cfg Node.test s fs).1 = Node.fix →
      (runStep ctx cfg Node.test s fs).2.1.retry_count = s.retry_count + 1) ∧
    (∀ cfg n s fs, s.retry_count ≤ s.max_iterations →
      (runStep ctx cfg n s fs).2.1.retry_count ≤ (runStep ctx cfg n s fs).2.1.max_iterations) ∧
    (∀ env file content N fs, 1 ≤ N →
      (graphInvoke env ctx (initialState file content N) fs).state.retry_count ≤ N) := by
  refine ⟨fun _ _ _ => rfl, runStep_retry_mono ctx, ?_, ?_, ?_⟩
  · intro cfg s fs hph hfix
    exact (runStep_test_fix_increment ctx cfg s fs hph hfix).1
  · intro cfg n s fs hle
    rw [runStep_max_iter]
    cases n with
    | test =>
      have hdeq : (test_node ctx s cfg fs).delta = (judgeExecute ctx s cfg.judge fs).delta := rfl
      have h : (runStep ctx cfg Node.test s fs).2.1.retry_count
          = (applyDelta s (test_node ctx s cfg fs).delta).retry_count := rfl
      rcases judge_delta_cases ctx s cfg.judge fs with ⟨hdr, -⟩ | ⟨hdr, -, hcap⟩ <;>
        rw [h, applyDelta_retry, hdeq, hdr] <;> simp <;> omega
    | audit =>
      have h : (runStep ctx cfg Node.audit s fs).2.1.retry_count = s.retry_count := by
        show (applyDelta s (audit_node s cfg)).retry_count = s.retry_count
        rw [applyDelta_retry, audit_node_retry]
        rfl
      omega
    | fix =>
      have h : (runStep ctx cfg Node.fix s fs).2.1.retry_count = s.retry_count := by
        show (applyDelta s (fix_node ctx s cfg fs).delta).retry_count = s.retry_count
        rw [applyDelta_retry, fix_node_delta_retry]
        rfl
      omega
    | error =>
      have h : (runStep ctx cfg Node.error s fs).2.1.retry_count = s.retry_count := by
        show (applyDelta s (error_node s)).retry_count = s.retry_count
        rw [applyDelta_retry]
        rfl
      omega
    | stop => exact hle
  · intro env file content N fs hN
    have h0 : NodeInv N 0 Node.audit (initialState file content N) :=
      ⟨rfl, le_refl 0, by simp only [initialState]; omega, rfl, rfl⟩
    have hinv := runFrom_inv env ctx N hN
      (2 * (initialState file content N).max_iterations.toNat + 3) 0 0 Node.audit
      (initialState file content N) fs h0
    exact hinv.2.2.1

/-- Witness for C5: on a concrete test step whose judge verdict fails below
the cap the route is fix and the counter goes from 0 to 1, and a concrete
bounded run ends with the counter within the cap. -/
theorem retry_counter_props_witness :
    (runStep { cwd := ["r"], sandbox_dir := ["r", "sandbox"] }
        { plan := fixerDefaultReport, llm := LLMOutcome.ok "x = 1", fix_syntax_valid := true,
          judge := { prepare_ok := true, prepare_err := "", syntax_valid := false,
                     syntax_err := "bad", syntax_line := 1, run_success := true, run_err := "",
                     pylint_score := 5, pytest_passed := false, pytest_failures := [],
                     pytest_errors := [] } }
        Node.test
        { target_dir := "", current_file := "proj/f.py", file_content := "x = 1",
          current_phase := "test", iteration := 1, max_iterations := 3,
          audit_report := none, fix_result := none, test_result := none,
          fixed_content := some "x = 1", test_errors := [], retry_count := 0,
          agent_outputs := [], errors := [] }
        []).2.1.retry_count = 0 + 1 ∧
    (graphInvoke (fun _ =>
        { plan := fixerDefaultReport, llm := LLMOutcome.ok "x = 1", fix_syntax_valid := true,
          judge := { prepare_ok := true, prepare_err := "", syntax_valid := false,
                     syntax_err := "bad", syntax_line := 1, run_success := true, run_err := "",
                     pylint_score := 5, pytest_passed := false, pytest_failures := [],
                     pytest_errors := [] } })
      { cwd := ["r"], sandbox_dir := ["r", "sandbox"] }
      (initialState "proj/f.py" "x = 1" 2) []).state.retry_count ≤ 2 := by
  constructor
  · have h := (retry_counter_props { cwd := ["r"], sandbox_dir := ["r", "sandbox"] }).2.2.1
      { plan := fixerDefaultReport, llm := LLMOutcome.ok "x = 1", fix_syntax_valid := true,
        judge := { prepare_ok := true, prepare_err := "", syntax_valid := false,
                   syntax_err := "bad", syntax_line := 1, run_success := true, run_err := "",
                   pylint_score := 5, pytest_passed := false, pytest_failures := [],
                   pytest_errors := [] } }
      { target_dir := "", current_file := "proj/f.py", file_content := "x = 1",
        current_phase := "test", iteration := 1, max_iterations := 3,
        audit_report := none, fix_result := none, test_result := none,
        fixed_content := some "x = 1", test_errors := [], retry_count := 0,
        agent_outputs := [], errors := [] }
      [] rfl (by decide)
    simpa using h
  · exact (retry_counter_props { cwd := ["r"], sandbox_dir := ["r", "sandbox"] }).2.2.2.2
      _ "proj/f.py" "x = 1" 2 [] (by decide)

/-! ## C7: orchestrator resilience and aggregates -/

/-- A per-file record reports success exactly when its final phase is done,
in both the normal and the exception path. -/
theorem processRecord_success_phase (ctx : Ctx) (maxIter : Int) (t : FileTask) :
    (processRecord ctx maxIter t).success
      = ((processRecord ctx maxIter t).final_phase == "done") := by
  cases hr : t.read with
  | err e => simp [processRecord, hr]
  | ok c => simp [processRecord, hr]

/-- C7. The orchestrator produces one record per enumerated file even when
a file read raises (the exception is caught, the file is recorded as failed
with the message, and the remaining files are still processed), and the
aggregates satisfy files_processed = number of files, files_successful =
number of records with final phase done, and files_failed = files_processed
minus files_successful. -/
theorem orchestrator_aggregates (ctx : Ctx) (maxIter : Int) (tasks : List FileTask) :
    (orchestrate ctx maxIter tasks).files_processed = tasks.length ∧
    (orchestrate ctx maxIter tasks).details = tasks.map (processRecord ctx maxIter) ∧
    (orchestrate ctx maxIter tasks).files_successful =
      ((orchestrate ctx maxIter tasks).details.filter
        (fun r => r.final_phase == "done")).length ∧
    (orchestrate ctx maxIter tasks).files_failed =
      (orchestrate ctx maxIter tasks).files_processed -
        (orchestrate ctx maxIter tasks).files_successful ∧
    (∀ t e, t ∈ tasks → t.read = LLMOutcome.err e →
      processRecord ctx maxIter t =
        { file := t.path, success := false, final_phase := "error", iterations := 0,
          error := some e } ∧
      processRecord ctx maxIter t ∈ (orchestrate ctx maxIter tasks).details) := by
  have hfilter : ∀ l : List FileRecord,
      (∀ r ∈ l, r.success = (r.final_phase == "done")) →
      (l.filter (fun r => r.success)).length
        = (l.filter (fun r => r.final_phase == "done")).length := by
    intro l hl
    rw [List.filter_congr hl]
  have hrec : ∀ t e, t.read = LLMOutcome.err e →
      processRecord ctx maxIter t =
        { file := t.path, success := false, final_phase := "error", iterations := 0,
          error := some e } := by
    intro t e hre
    simp [processRecord, hre]
  cases tasks with
  | nil =>
    refine ⟨rfl, rfl, rfl, rfl, ?_⟩
    intro t e ht
    exact absurd ht (List.not_mem_nil t)
  | cons t0 rest =>
    refine ⟨?_, rfl, ?_, rfl, ?_⟩
    · simp [orchestrate]
    · have hall : ∀ r ∈ (t0 :: rest).map (processRecord ctx maxIter),
          r.success = (r.final_phase == "done") := by
        intro r hrm
        obtain ⟨t, -, hteq⟩ := List.mem_map.mp hrm
        rw [← hteq]
        exact processRecord_success_phase ctx maxIter t
      exact hfilter _ hall
    · intro t e ht hre
      exact ⟨hrec t e hre, List.mem_map.mpr ⟨t, ht, rfl⟩⟩

/-- Witness for C7: two files, the first with a read error; both are
recorded, the aggregates add up, and the bad file carries its message. -/
theorem orchestrator_aggregates_witness :
    (orchestrate { cwd := ["r"], sandbox_dir := ["r", "sandbox"] } 2
        [{ path := "proj/bad.py", read := LLMOutcome.err "unreadable",
           env := fun _ =>
             { plan := fixerDefaultReport, llm := LLMOutcome.ok "x = 1",
               fix_syntax_valid := true,
               judge := { prepare_ok := true, prepare_err := "", syntax_valid := true,
                          syntax_err := "", syntax_line := 0, run_success := true,
                          run_err := "", pylint_score := 5, pytest_passed := false,
                          pytest_failures := [], pytest_errors := [] } } },
         { path := "proj/good.py", read := LLMOutcome.ok "x = 1",
           env := fun _ =>
             { plan := fixerDefaultReport, llm := LLMOutcome.ok "x = 1",
               fix_syntax_valid := true,
               judge := { prepare_ok := true, prepare_err := "", syntax_valid := true,
                          syntax_err := "", syntax_line := 0, run_success := true,
                          run_err := "", pylint_score := 5, pytest_passed := false,
                          pytest_failures := [], pytest_errors := [] } } }]).files_processed
      = 2 ∧
    processRecord { cwd := ["r"], sandbox_dir := ["r", "sandbox"] } 2
        { path := "proj/bad.py", read := LLMOutcome.err "unreadable",
          env := fun _ =>
            { plan := fixerDefaultReport, llm := LLMOutcome.ok "x = 1",
              fix_syntax_valid := true,
              judge := { prepare_ok := true, prepare_err := "", syntax_valid := true,
                         syntax_err := "", syntax_line := 0, run_success := true,
                         run_err := "", pylint_score := 5, pytest_passed := false,
                         pytest_failures := [], pytest_errors := [] } } }
      = { file := "proj/bad.py", success := false, final_phase := "error", iterations := 0,
          error := some "unreadable" } := by
  constructor
  · exact (orchestrator_aggregates { cwd := ["r"], sandbox_dir := ["r", "sandbox"] } 2 _).1
  · exact ((orchestrator_aggregates { cwd := ["r"], sandbox_dir := ["r", "sandbox"] } 2
      [{ path := "proj/bad.py", read := LLMOutcome.err "unreadable",
         env := fun _ =>
           { plan := fixerDefaultReport, llm := LLMOutcome.ok "x = 1",
             fix_syntax_valid := true,
             judge := { prepare_ok := true, prepare_err := "", syntax_valid := true,
                        syntax_err := "", syntax_line := 0, run_success := true,
                        run_err := "", pylint_score := 5, pytest_passed := false,
                        pytest_failures := [], pytest_errors := [] } } }]).2.2.2.2
      _ "unreadable" (List.mem_singleton.mpr rfl) rfl).1

/-! ## C8: file enumeration -/

/-- Totality of the code-point lexicographic order. -/
theorem lexLe_total : ∀ as bs : List Char, lexLe as bs = true ∨ lexLe bs as = true := by
  intro as
  induction as with
  | nil => intro bs; exact Or.inl rfl
  | cons a as2 ih =>
    intro bs
    cases bs with
    | nil => exact Or.inr rfl
    | cons b bs2 =>
      by_cases hab : a = b
      · subst hab
        rcases ih bs2 with h | h
        · exact Or.inl (by simp [lexLe, h])
        · exact Or.inr (by simp [lexLe, h])
      · rcases lt_or_gt_of_ne hab with h | h
        · exact Or.inl (by simp [lexLe, hab, h])
        · exact Or.inr (by simp [lexLe, Ne.symm hab, h])

/-- Transitivity of the code-point lexicographic order. -/
theorem lexLe_trans : ∀ as bs cs : List Char,
    lexLe as bs = true → lexLe bs cs = true → lexLe as cs = true := by
  intro as
  induction as with
  | nil => intro bs cs h1 h2; rfl
  | cons a as2 ih =>
    intro bs cs h1 h2
    cases bs with
    | nil => simp [lexLe] at h1
    | cons b bs2 =>
      cases cs with
      | nil => simp [lexLe] at h2
      | cons c cs2 =>
        by_cases hab : a = b
        · subst hab
          by_cases hac : a = c
          · subst hac
            simp only [lexLe, if_pos rfl] at h1 h2 ⊢
            exact ih bs2 cs2 h1 h2
          · simp only [lexLe, if_pos rfl] at h1
            simpa [lexLe, hac] using h2
        · have hlt1 : a < b := by
            have h1b := h1
            simp only [lexLe, if_neg hab, decide_eq_true_eq] at h1b
            exact h1b
          by_cases hbc : b = c
          · subst hbc
            simp [lexLe, hab, hlt1]
          · have hlt2 : b < c := by
              have h2b := h2
              simp only [lexLe, if_neg hbc, decide_eq_true_eq] at h2b
              exact h2b
            have hlt : a < c := lt_trans hlt1 hlt2
            simp [lexLe, ne_of_lt hlt, hlt]

/-- Totality of the string order. -/
theorem strLe_total (a b : String) : strLe a b = true ∨ strLe b a = true :=
  lexLe_total a.data b.data

/-- Transitivity of the string order. -/
theorem strLe_trans (a b c : String) :
    strLe a b = true → strLe b c = true → strLe a c = true :=
  lexLe_trans a.data b.data c.data

/-- C8 counterexample: the enumeration does not exclude cache or VCS
directories. On a walk containing proj/__pycache__ and proj/.git, both
nested .py files appear in the result, refuting the claimed exclusion. -/
theorem getPythonFiles_counterexample :
    getPythonFiles [("proj", ["a.py", "b.txt"]), ("proj/__pycache__", ["x.py"]),
        ("proj/.git", ["hook.py"])]
      = ["proj/.git/hook.py", "proj/__pycache__/x.py", "proj/a.py"] ∧
    "proj/__pycache__/x.py" ∈ getPythonFiles [("proj", ["a.py", "b.txt"]),
        ("proj/__pycache__", ["x.py"]), ("proj/.git", ["hook.py"])] ∧
    "proj/.git/hook.py" ∈ getPythonFiles [("proj", ["a.py", "b.txt"]),
        ("proj/__pycache__", ["x.py"]), ("proj/.git", ["hook.py"])] := by
  refine ⟨by decide, by decide, by decide⟩

/-- C8 as amended. The enumeration returns, sorted lexicographically by
code point, exactly the root-joined filenames ending in .py from every
walked directory, with no directory excluded. -/
theorem getPythonFiles_amended (walk : List (String × List String)) :
    List.Sorted (fun a b => strLe a b = true) (getPythonFiles walk) ∧
    (∀ p, p ∈ getPythonFiles walk ↔
      ∃ rd, rd ∈ walk ∧ ∃ f, f ∈ rd.2 ∧ strEndsWith f ".py" = true ∧ p = rd.1 ++ "/" ++ f) := by
  constructor
  · haveI ht : IsTrans String (fun a b => strLe a b = true) :=
      ⟨fun a b c => strLe_trans a b c⟩
    haveI hto : IsTotal String (fun a b => strLe a b = true) :=
      ⟨fun a b => strLe_total a b⟩
    exact List.sorted_insertionSort _ _
  · intro p
    rw [show (p ∈ getPythonFiles walk) =
        (p ∈ walk.flatMap (fun rd =>
          (rd.2.filter (fun f => strEndsWith f ".py")).map (fun f => rd.1 ++ "/" ++ f))) from
      propext ((List.perm_insertionSort _ _).mem_iff)]
    constructor
    · intro h
      obtain ⟨rd, hrd, hmem⟩ := List.mem_flatMap.mp h
      obtain ⟨f, hf, hp⟩ := List.mem_map.mp hmem
      obtain ⟨hf2, hfpy⟩ := List.mem_filter.mp hf
      exact ⟨rd, hrd, f, hf2, hfpy, hp.symm⟩
    · rintro ⟨rd, hrd, f, hf, hpy, rfl⟩
      exact List.mem_flatMap.mpr
        ⟨rd, hrd, List.mem_map.mpr ⟨f, List.mem_filter.mpr ⟨hf, hpy⟩, rfl⟩⟩

/-- Witness for the amended C8 on a concrete walk: the characterization
yields membership of the nested cache file. -/
theorem getPythonFiles_amended_witness :
    "proj/__pycache__/x.py" ∈ getPythonFiles [("proj", ["a.py", "b.txt"]),
        ("proj/__pycache__", ["x.py"])] :=
  ((getPythonFiles_amended [("proj", ["a.py", "b.txt"]),
      ("proj/__pycache__", ["x.py"])]).2 "proj/__pycache__/x.py").mpr
    ⟨("proj/__pycache__", ["x.py"]), by decide, "x.py", by decide, by decide, by decide⟩

/-! ## C3 and C4: the audit-report key mismatch and the frozen iteration -/

/-- Transcription of AuditorAgent._simulate_llm_response, the concrete plan
the Auditor produces when no LLM client is available. -/
def auditorSimulatedPlan : AuditReport :=
  { critical_issues := [{ line := 20, kind := "security",
                          description := "eval() with user input - security risk",
                          suggestion := "Remove eval() or sanitize input" }],
    major_issues := [{ line := 28, kind := "error_handling",
                       description := "Bare except clause",
                       suggestion := "Specify exception types" }],
    minor_issues := [{ line := 33, kind := "style",
                       description := "Missing spaces around operators",
                       suggestion := "Add spaces: x = 5" }],
    summary := { pylint_score := some (5.5 : Rat), function_count := some 3,
                 overall_risk := some "medium",
                 refactoring_priority := ["Fix security issues", "Improve error handling"],
                 note := none },
    file := none, fallback := false, error := none }

/-- Shared example process context. -/
def ctxEx : Ctx := { cwd := ["r"], sandbox_dir := ["r", "sandbox"] }

/-- Shared example judge oracle whose syntax check always fails. -/
def jtFail : JudgeTools :=
  { prepare_ok := true, prepare_err := "", syntax_valid := false, syntax_err := "bad",
    syntax_line := 1, run_success := true, run_err := "", pylint_score := 5,
    pytest_passed := false, pytest_failures := [], pytest_errors := [] }

/-- Shared example step oracle: the Auditor parses its simulated plan, the
Fixer LLM returns code, the judge syntax check fails. -/
def cfgSim : Config :=
  { plan := auditorSimulatedPlan, llm := LLMOutcome.ok "x = 1", fix_syntax_valid := true,
    judge := jtFail }

/-- C3. The audit report never reaches the Fixer: after the audit node runs
on a fresh state, the top-level audit_report key is still None (the Auditor
stored the plan only under agent_outputs["audit_report"]), so the Fixer
prompt is built from the default placeholder report, which differs from the
plan the Auditor produced. -/
theorem audit_report_disconnect :
    (applyDelta (initialState "proj/f.py" "x = 1" 10)
        (audit_node (initialState "proj/f.py" "x = 1" 10) cfgSim)).audit_report = none ∧
    aoGet (applyDelta (initialState "proj/f.py" "x = 1" 10)
        (audit_node (initialState "proj/f.py" "x = 1" 10) cfgSim)).agent_outputs
        "audit_report" = some (AOVal.report auditorSimulatedPlan) ∧
    fixerPrompt (applyDelta (initialState "proj/f.py" "x = 1" 10)
        (audit_node (initialState "proj/f.py" "x = 1" 10) cfgSim)) =
      { code := "x = 1", audit_report := fixerDefaultReport, test_errors := [] } ∧
    fixerDefaultReport ≠ auditorSimulatedPlan := by
  refine ⟨rfl, rfl, by decide, by decide⟩

/-- C4. No driver step ever changes the iteration field (no return dict in
the sources carries an iteration key and increment_iteration is never
called), so on the concrete run whose judge fails twice under cap 3 the
final state has retry_count 2 yet iteration still 1, and the per-file
record reports iterations = 1. -/
theorem iteration_never_incremented :
    (∀ ctx cfg n s fs, (runStep ctx cfg n s fs).2.1.iteration = s.iteration) ∧
    (initialState "proj/f.py" "x = 1" 3).iteration = 1 ∧
    (graphInvoke (fun _ => cfgSim) ctxEx (initialState "proj/f.py" "x = 1" 3)
        []).state.retry_count = 2 ∧
    (graphInvoke (fun _ => cfgSim) ctxEx (initialState "proj/f.py" "x = 1" 3)
        []).state.iteration = 1 ∧
    (processRecord ctxEx 3
        { path := "proj/f.py", read := LLMOutcome.ok "x = 1",
          env := fun _ => cfgSim }).iterations = 1 := by
  refine ⟨?_, rfl, by decide, by decide, by decide⟩
  intro ctx cfg n s fs
  cases n <;> rfl

/-! ## C9: sandbox writes and the untouched input file -/

/-- Stem of a string whose characters end in dot-p-y: everything before
that final extension. -/
theorem pathStem_data (s : String) (l : List Char) (h : s.data = l ++ ('.' :: 'p' :: 'y' :: [])) :
    (pathStem s).data = l := by
  have hc : s.data.contains '.' = true := by
    rw [h]
    simp
  simp only [pathStem, hc, if_true, h]
  simp [List.dropWhile]

/-- String length is the length of its character list. -/
theorem str_length_data (s : String) : s.length = s.data.length := rfl

/-- Character data of an append. -/
theorem str_data_append (a b : String) : (a ++ b).data = a.data ++ b.data :=
  String.data_append a b

/-- Strings of at least three characters are neither the single-dot nor the
double-dot path component. -/
theorem ne_dots_of_long (w : String) (h : 3 ≤ w.data.length) : w ≠ "." ∧ w ≠ ".." := by
  constructor <;> intro he <;> rw [he] at h <;> simp at h

/-- None of the four sandbox filenames an agent writes equals the basename
of the file under repair, provided that basename ends in .py. -/
theorem write_names_ne_basename (b : String) (t : List Char)
    (hb : b.data = t ++ ('.' :: 'p' :: 'y' :: [])) (i : Int) :
    "test_" ++ b ≠ b ∧ "final_" ++ b ≠ b ∧ "fixed_" ++ toString i ++ "_" ++ b ≠ b ∧
    "test_" ++ pathStem ("test_" ++ b) ++ ".py" ≠ b := by
  have hlb : b.data.length = t.length + 3 := by rw [hb]; simp
  have hstem : (pathStem ("test_" ++ b)).data = "test_".data ++ t := by
    apply pathStem_data
    rw [str_data_append, hb]
    simp
  refine ⟨?_, ?_, ?_, ?_⟩
  · intro he
    have hlen := congrArg (fun x : String => x.data.length) he
    simp only [str_data_append, List.length_append, List.length_cons, List.length_nil] at hlen
    omega
  · intro he
    have hlen := congrArg (fun x : String => x.data.length) he
    simp only [str_data_append, List.length_append, List.length_cons, List.length_nil] at hlen
    omega
  · intro he
    have hlen := congrArg (fun x : String => x.data.length) he
    simp only [str_data_append, List.length_append, List.length_cons, List.length_nil] at hlen
    omega
  · intro he
    have hlen := congrArg (fun x : String => x.data.length) he
    simp only [str_data_append, hstem, List.length_append, List.length_cons,
      List.length_nil] at hlen
    omega

/-- The sandbox filenames the agents use are long enough to be no dot
components. -/
theorem sandbox_names_ne_dots (b : String) (i : Int) :
    ("test_" ++ b ≠ "." ∧ "test_" ++ b ≠ "..") ∧
    ("final_" ++ b ≠ "." ∧ "final_" ++ b ≠ "..") ∧
    ("fixed_" ++ toString i ++ "_" ++ b ≠ "." ∧ "fixed_" ++ toString i ++ "_" ++ b ≠ "..") := by
  refine ⟨ne_dots_of_long _ ?_, ne_dots_of_long _ ?_, ne_dots_of_long _ ?_⟩ <;>
    simp only [str_data_append, List.length_append, List.length_cons, List.length_nil] <;>
    omega

/-- A sandbox write at a filename whose sandbox path differs from R leaves
the content at R unchanged. -/
theorem fsGet_write_other (ctx : Ctx) (fs : FS) (w content : String) (R : AbsPath)
    (hs : ∀ c ∈ ctx.sandbox_dir, c ≠ "." ∧ c ≠ "..")
    (hw : w ≠ "." ∧ w ≠ "..")
    (hwR : ctx.sandbox_dir ++ [w] ≠ R) :
    fsGet (write_file ctx fs (get_sandbox_path ctx w) content).1 R = fsGet fs R := by
  rw [write_file_sandbox ctx fs w content hs hw]
  simp [fsGet_fsSet, hwR]

/-- A raw store at a sandbox path other than R leaves R unchanged. -/
theorem fsGet_fsSet_other (fs : FS) (p : AbsPath) (c : String) (R : AbsPath) (h : p ≠ R) :
    fsGet (fsSet fs p c) R = fsGet fs R := by
  simp [fsGet_fsSet, h]

/-- A fix pass touches no file other than its own sandbox target. -/
theorem fixerExecute_fs_frame (ctx : Ctx) (s : WorkflowState) (llm : LLMOutcome) (v : Bool)
    (fs : FS) (R : AbsPath)
    (hs : ∀ c ∈ ctx.sandbox_dir, c ≠ "." ∧ c ≠ "..")
    (hR : ctx.sandbox_dir
        ++ ["fixed_" ++ toString s.iteration ++ "_" ++ pathName s.current_file] ≠ R) :
    fsGet (fixerExecute ctx s llm v fs).fs R = fsGet fs R := by
  by_cases h : fixerBaseCode s = ""
  · simp [fixerExecute, h]
  · cases llm with
    | err e => simp [fixerExecute, h]
    | ok code =>
      simp only [fixerExecute, if_neg h]
      exact fsGet_write_other ctx fs _ code R hs
        ((sandbox_names_ne_dots (pathName s.current_file) s.iteration).2.2) hR

/-- The success handler touches no file other than the final sandbox
target. -/
theorem handle_test_success_fs (ctx : Ctx) (s : WorkflowState) (score : Rat) (fs : FS)
    (R : AbsPath)
    (hs : ∀ c ∈ ctx.sandbox_dir, c ≠ "." ∧ c ≠ "..")
    (hR : ctx.sandbox_dir ++ ["final_" ++ pathName s.current_file] ≠ R) :
    fsGet (handle_test_success ctx s score fs).2.1 R = fsGet fs R := by
  unfold handle_test_success
  by_cases hcf : s.current_file ≠ ""
  · rw [if_pos hcf]
    cases hfc : s.fixed_content with
    | none => rfl
    | some c =>
      by_cases hc : c = ""
      · subst hc
        rfl
      · simp only [hc, if_false, ite_false]
        exact fsGet_write_other ctx fs _ c R hs
          ((sandbox_names_ne_dots (pathName s.current_file) 0).2.1) hR
  · rw [if_neg hcf]

/-- The generated-test step touches no file other than its own sandbox
target. -/
theorem judgeRunTests_fs (ctx : Ctx) (tools : JudgeTools) (tn code : String) (fs : FS)
    (R : AbsPath)
    (hR : ctx.sandbox_dir ++ ["test_" ++ pathStem tn ++ ".py"] ≠ R) :
    fsGet (judgeRunTests ctx tools tn code fs).2.1 R = fsGet fs R := by
  by_cases h : (strContains code "def test_" || strContains code "class Test") = true
  · simp [judgeRunTests, h]
  · simp only [judgeRunTests, h, if_false, ite_false, Bool.false_eq_true]
    exact fsGet_fsSet_other fs _ _ R hR

/-- A judge pass touches no file other than its three sandbox targets. -/
theorem judgeExecute_fs_frame (ctx : Ctx) (s : WorkflowState) (tools : JudgeTools) (fs : FS)
    (R : AbsPath)
    (hs : ∀ c ∈ ctx.sandbox_dir, c ≠ "." ∧ c ≠ "..")
    (hR1 : ctx.sandbox_dir ++ ["test_" ++ pathName s.current_file] ≠ R)
    (hR2 : ctx.sandbox_dir ++ ["final_" ++ pathName s.current_file] ≠ R)
    (hR3 : ctx.sandbox_dir
        ++ ["test_" ++ pathStem ("test_" ++ pathName s.current_file) ++ ".py"] ≠ R) :
    fsGet (judgeExecute ctx s tools fs).fs R = fsGet fs R := by
  by_cases h1 : judgeFixedCode s = ""
  · simp [judgeExecute, h1]
  · have hfs1 : fsGet (write_file ctx fs
        (get_sandbox_path ctx ("test_" ++ pathName s.current_file)) (judgeFixedCode s)).1 R
        = fsGet fs R :=
      fsGet_write_other ctx fs _ _ R hs
        ((sandbox_names_ne_dots (pathName s.current_file) 0).1) hR1
    have htr : fsGet (judgeRunTests ctx tools ("test_" ++ pathName s.current_file)
        (judgeFixedCode s)
        (write_file ctx fs (get_sandbox_path ctx ("test_" ++ pathName s.current_file))
          (judgeFixedCode s)).1).2.1 R = fsGet fs R := by
      rw [judgeRunTests_fs ctx tools _ _ _ R hR3]
      exact hfs1
    simp only [judgeExecute, if_neg h1]
    by_cases hprep : tools.prepare_ok = true <;>
      by_cases hsv : tools.syntax_valid = true <;>
      by_cases hrs : tools.run_success = true <;>
      simp only [hprep, hsv, hrs, Bool.not_true, Bool.not_false, not_true, not_false_iff,
        ite_true, ite_false, Bool.false_eq_true, if_true, if_false]
    all_goals try exact hfs1
    all_goals split
    all_goals try exact htr
    all_goals rw [handle_test_success_fs ctx s tools.pylint_score _ R hs hR2]
    all_goals exact htr

/-- Filenames written by a fix pass. -/
theorem fixerExecute_writes (ctx : Ctx) (s : WorkflowState) (llm : LLMOutcome) (v : Bool)
    (fs : FS) :
    ∀ w ∈ (fixerExecute ctx s llm v fs).writes,
      w.1 = "fixed_" ++ toString s.iteration ++ "_" ++ pathName s.current_file := by
  intro w hw
  by_cases h : fixerBaseCode s = ""
  · simp [fixerExecute, h] at hw
  · cases llm with
    | err e => simp [fixerExecute, h] at hw
    | ok code =>
      simp only [fixerExecute, if_neg h, List.mem_singleton] at hw
      rw [hw]

/-- Filenames written by the generated-test step. -/
theorem judgeRunTests_writes (ctx : Ctx) (tools : JudgeTools) (tn code : String) (fs : FS) :
    ∀ w ∈ (judgeRunTests ctx tools tn code fs).2.2, w.1 = "test_" ++ pathStem tn ++ ".py" := by
  intro w hw
  by_cases h : (strContains code "def test_" || strContains code "class Test") = true
  · simp [judgeRunTests, h] at hw
  · simp only [judgeRunTests, h, if_false, ite_false, Bool.false_eq_true,
      List.mem_singleton] at hw
    rw [hw]

/-- Filenames written by the success handler. -/
theorem handle_test_success_writes (ctx : Ctx) (s : WorkflowState) (score : Rat) (fs : FS) :
    ∀ w ∈ (handle_test_success ctx s score fs).2.2,
      w.1 = "final_" ++ pathName s.current_file := by
  intro w hw
  unfold handle_test_success at hw
  by_cases hcf : s.current_file ≠ ""
  · rw [if_pos hcf] at hw
    cases hfc : s.fixed_content with
    | none =>
      rw [hfc] at hw
      exact absurd hw (List.not_mem_nil w)
    | some c =>
      rw [hfc] at hw
      by_cases hc : c = ""
      · subst hc
        exact absurd hw (List.not_mem_nil w)
      · simp only [hc, if_false, ite_false] at hw
        rw [List.eq_of_mem_singleton hw]
  · rw [if_neg hcf] at hw
    exact absurd hw (List.not_mem_nil w)

/-- Filenames written by a judge pass. -/
theorem judgeExecute_writes (ctx : Ctx) (s : WorkflowState) (tools : JudgeTools) (fs : FS) :
    ∀ w ∈ (judgeExecute ctx s tools fs).writes,
      w.1 = "test_" ++ pathName s.current_file ∨
      w.1 = "final_" ++ pathName s.current_file ∨
      w.1 = "test_" ++ pathStem ("test_" ++ pathName s.current_file) ++ ".py" := by
  intro w hw
  by_cases h1 : judgeFixedCode s = ""
  · simp [judgeExecute, h1] at hw
  · simp only [judgeExecute, if_neg h1] at hw
    by_cases hprep : tools.prepare_ok = true
    · by_cases hsv : tools.syntax_valid = true
      · by_cases hrs : tools.run_success = true
        · simp only [hprep, hsv, hrs, Bool.not_true, not_true, not_false_iff,
            ite_true, ite_false, Bool.false_eq_true, if_true, if_false] at hw
          split at hw
          · rcases List.mem_append.mp hw with hw1 | hw2
            · rcases List.mem_append.mp hw1 with hw0 | hwtr
              · simp only [List.mem_singleton] at hw0
                exact Or.inl (by rw [hw0])
              · exact Or.inr (Or.inr (judgeRunTests_writes ctx tools _ _ _ w hwtr))
            · exact Or.inr (Or.inl (handle_test_success_writes ctx s tools.pylint_score _ w hw2))
          · rcases List.mem_append.mp hw with hw0 | hwtr
            · simp only [List.mem_singleton] at hw0
              exact Or.inl (by rw [hw0])
            · exact Or.inr (Or.inr (judgeRunTests_writes ctx tools _ _ _ w hwtr))
        · simp only [hprep, hsv, hrs, Bool.not_true, not_true, not_false_iff,
            ite_true, ite_false, Bool.false_eq_true, if_true, if_false,
            List.mem_singleton] at hw
          exact Or.inl (by rw [hw])
      · simp only [hprep, hsv, Bool.not_true, not_true, not_false_iff,
          ite_true, ite_false, Bool.false_eq_true, if_true, if_false,
          List.mem_singleton] at hw
        exact Or.inl (by rw [hw])
    · simp only [hprep, Bool.not_true, not_true, not_false_iff,
        ite_true, ite_false, Bool.false_eq_true, if_true, if_false,
        List.mem_singleton] at hw
      exact Or.inl (by rw [hw])

/-- No driver step changes current_file. -/
theorem runStep_current_file (ctx : Ctx) (cfg : Config) (n : Node) (s : WorkflowState)
    (fs : FS) : (runStep ctx cfg n s fs).2.1.current_file = s.current_file := by
  cases n <;> rfl

/-- One driver step leaves every file outside the sandbox targets of the
current input file unchanged. -/
theorem runStep_fs_frame (ctx : Ctx) (cfg : Config) (n : Node) (s : WorkflowState) (fs : FS)
    (R : AbsPath) (t : List Char)
    (hs : ∀ c ∈ ctx.sandbox_dir, c ≠ "." ∧ c ≠ "..")
    (hb : (pathName s.current_file).data = t ++ ('.' :: 'p' :: 'y' :: []))
    (HR : ∀ w : String, R = ctx.sandbox_dir ++ [w] → w = pathName s.current_file) :
    fsGet (runStep ctx cfg n s fs).2.2 R = fsGet fs R := by
  have hnam := write_names_ne_basename (pathName s.current_file) t hb s.iteration
  have hner : ∀ w : String, w ≠ pathName s.current_file → ctx.sandbox_dir ++ [w] ≠ R := by
    intro w hwb heq
    exact hwb (HR w heq.symm)
  cases n with
  | audit => rfl
  | error => rfl
  | stop => rfl
  | fix =>
    exact fixerExecute_fs_frame ctx s cfg.llm cfg.fix_syntax_valid fs R hs
      (hner _ hnam.2.2.1)
  | test =>
    exact judgeExecute_fs_frame ctx s cfg.judge fs R hs (hner _ hnam.1) (hner _ hnam.2.1)
      (hner _ hnam.2.2.2)

/-- A whole driver run leaves every file outside the sandbox targets of the
input file unchanged; in particular the input file itself. -/
theorem runFrom_fs_frame (env : Nat → Config) (ctx : Ctx) (R : AbsPath) (t : List Char)
    (hs : ∀ c ∈ ctx.sandbox_dir, c ≠ "." ∧ c ≠ "..") :
    ∀ fuel i k n s fs,
      (pathName s.current_file).data = t ++ ('.' :: 'p' :: 'y' :: []) →
      (∀ w : String, R = ctx.sandbox_dir ++ [w] → w = pathName s.current_file) →
      fsGet (runFrom env ctx fuel i k n s fs).fs R = fsGet fs R := by
  intro fuel
  induction fuel with
  | zero => intro i k n s fs hb HR; simp [runFrom]
  | succ m ih =>
    intro i k n s fs hb HR
    cases n with
    | stop => simp [runFrom]
    | audit =>
      have hcf := runStep_current_file ctx (env i) Node.audit s fs
      have hstep := runStep_fs_frame ctx (env i) Node.audit s fs R t hs hb HR
      simp only [runFrom]
      rw [ih (i + 1) _ _ _ _ (by rw [hcf]; exact hb) (by rw [hcf]; exact HR), hstep]
    | fix =>
      have hcf := runStep_current_file ctx (env i) Node.fix s fs
      have hstep := runStep_fs_frame ctx (env i) Node.fix s fs R t hs hb HR
      simp only [runFrom]
      rw [ih (i + 1) _ _ _ _ (by rw [hcf]; exact hb) (by rw [hcf]; exact HR), hstep]
    | test =>
      have hcf := runStep_current_file ctx (env i) Node.test s fs
      have hstep := runStep_fs_frame ctx (env i) Node.test s fs R t hs hb HR
      simp only [runFrom]
      rw [ih (i + 1) _ _ _ _ (by rw [hcf]; exact hb) (by rw [hcf]; exact HR), hstep]
    | error =>
      have hcf := runStep_current_file ctx (env i) Node.error s fs
      have hstep := runStep_fs_frame ctx (env i) Node.error s fs R t hs hb HR
      simp only [runFrom]
      rw [ih (i + 1) _ _ _ _ (by rw [hcf]; exact hb) (by rw [hcf]; exact HR), hstep]

/-- Shared example judge oracle whose checks all pass. -/
def jtPass : JudgeTools :=
  { prepare_ok := true, prepare_err := "", syntax_valid := true, syntax_err := "",
    syntax_line := 0, run_success := true, run_err := "", pylint_score := 5,
    pytest_passed := false, pytest_failures := [], pytest_errors := [] }

/-- Shared example state mid-run: a fixed candidate without embedded tests
awaiting judgment. -/
def stateFixedEx : WorkflowState :=
  { target_dir := "", current_file := "proj/foo.py", file_content := "x = 1",
    current_phase := "test", iteration := 1, max_iterations := 3,
    audit_report := none, fix_result := none, test_result := none,
    fixed_content := some "x = 1", test_errors := [], retry_count := 0,
    agent_outputs := [], errors := [] }

/-- C9 counterexample: when the judged code holds no embedded tests, the
judge pass also writes the auto-generated test file, whose name is neither
test_!basename! nor final_!basename!, refuting the claimed enumeration of
Judge writes. -/
theorem judge_writes_counterexample :
    (judgeExecute ctxEx stateFixedEx jtPass []).writes =
      [("test_foo.py", "x = 1"),
       ("test_test_foo.py", "auto-generated tests for test_foo.py"),
       ("final_foo.py", "x = 1")] ∧
    ("test_test_foo.py", "auto-generated tests for test_foo.py")
        ∈ (judgeExecute ctxEx stateFixedEx jtPass []).writes ∧
    "test_test_foo.py" ≠ "test_" ++ pathName stateFixedEx.current_file ∧
    "test_test_foo.py" ≠ "final_" ++ pathName stateFixedEx.current_file := by
  refine ⟨by decide, by decide, by decide, by decide⟩

/-- C9 as amended. Every write of a fix pass is the sandbox file
fixed_!iteration!_!basename!; every write of a judge pass is one of the
sandbox files test_!basename!, final_!basename!, or the auto-generated
test file test_!stem of test_basename!.py; and a whole graph run never
changes the content stored at any path R that is not one of the sandbox
slots of the input file - in particular the input file itself, whose
resolved path either lies outside the sandbox or is the sandbox entry named
by its own basename. -/
theorem pipeline_writes_sandboxed (ctx : Ctx) (s : WorkflowState) :
    (∀ llm v fs, ∀ w ∈ (fixerExecute ctx s llm v fs).writes,
      w.1 = "fixed_" ++ toString s.iteration ++ "_" ++ pathName s.current_file) ∧
    (∀ tools fs, ∀ w ∈ (judgeExecute ctx s tools fs).writes,
      w.1 = "test_" ++ pathName s.current_file ∨
      w.1 = "final_" ++ pathName s.current_file ∨
      w.1 = "test_" ++ pathStem ("test_" ++ pathName s.current_file) ++ ".py") ∧
    (∀ env fs R t,
      (∀ c ∈ ctx.sandbox_dir, c ≠ "." ∧ c ≠ "..") →
      (pathName s.current_file).data = t ++ ('.' :: 'p' :: 'y' :: []) →
      (∀ w : String, R = ctx.sandbox_dir ++ [w] → w = pathName s.current_file) →
      fsGet (graphInvoke env ctx s fs).fs R = fsGet fs R) := by
  refine ⟨?_, ?_, ?_⟩
  · intro llm v fs
    exact fixerExecute_writes ctx s llm v fs
  · intro tools fs
    exact judgeExecute_writes ctx s tools fs
  · intro env fs R t hsand hb HR
    exact runFrom_fs_frame env ctx R t hsand _ 0 0 Node.audit s fs hb HR

/-- Witness for the amended C9: a concrete run on proj/foo.py, with the
file stored outside the sandbox, leaves its content untouched. -/
theorem pipeline_writes_sandboxed_witness :
    fsGet (graphInvoke (fun _ =>
        { plan := auditorSimulatedPlan, llm := LLMOutcome.ok "x = 1",
          fix_syntax_valid := true, judge := jtPass })
        ctxEx stateFixedEx [(["r", "proj", "foo.py"], "original content")]).fs
      ["r", "proj", "foo.py"] = some "original content" := by
  have h := (pipeline_writes_sandboxed ctxEx stateFixedEx).2.2
    (fun _ =>
      { plan := auditorSimulatedPlan, llm := LLMOutcome.ok "x = 1",
        fix_syntax_valid := true, judge := jtPass })
    [(["r", "proj", "foo.py"], "original content")] ["r", "proj", "foo.py"]
    ('f' :: 'o' :: 'o' :: [])
    (by decide)
    (by decide)
    (by intro w hw; simp [ctxEx] at hw)
  rw [h]
  decide

end Swarm
